import Mathlib

/-!
The mini-snmpd agent: event loop and Linux collectors.

A shallow embedding of `mini_snmpd.c` (the transport handlers and the main
loop) and of `linux.c` (the host collectors), followed by theorems about
them.

Conventions of the embedding.

* C `int`, `ssize_t` and `time_t` values are `Int`; `size_t` and other
  unsigned values are `Nat`, reduced modulo `2^32` where the C type wraps.
* A byte buffer is a `List Nat`.  A write of `data` at offset `off` replaces
  the bytes `off .. off + data.length` and keeps the rest (`write_at`).
* The array of client pointers `g_tcp_client_list` is the list of the
  pointed-to control blocks, slot by slot; slots at or beyond
  `g_tcp_client_list_length` are stale.
* What a system call or a routine defined outside these two files returns
  is an input of the embedded function; what the function does to the
  outside world (close, sendto, a call of the dispatcher) is recorded in a
  list of `Event`s, oldest first.
* `exit(code)` and behaviour that C leaves undefined end a run with an
  `Abort`.
-/

namespace MiniSnmpd

/-! ## Shared data -/

/-- The client control block `client_t` of `mini_snmpd.h`: last-activity
time, socket, peer address and port, the packet buffer with the number of
valid bytes, and the direction flag. -/
structure client_t where
  timestamp : Int
  sockfd : Int
  addr : Nat
  port : Int
  packet : List Nat
  size : Nat
  outgoing : Int
deriving DecidableEq, Repr

/-- The exit codes of `mini_snmpd.h`. -/
inductive ExitCode where
  | EXIT_OK
  | EXIT_ARGS
  | EXIT_SYSCALL
deriving DecidableEq, Repr

/-- How a run ends early: `exit(code)`, or behaviour C leaves undefined. -/
inductive Abort where
  | exit (code : ExitCode)
  | undefined
deriving DecidableEq, Repr

/-- The effects of the handlers on the outside world. -/
inductive Event where
  | close (fd : Int)
  | snmp (client : client_t)
  | sendto (fd : Int) (bytes : List Nat) (addr : Nat) (port : Int)
  | send (fd : Int) (bytes : List Nat)
deriving DecidableEq, Repr

/-- Bytes of `buf` after `data` was stored at offset `off`. -/
def write_at {α : Type} (buf : List α) (off : Nat) (data : List α) : List α :=
  buf.take off ++ data ++ buf.drop (off + data.length)

/-- The array after `memmove(&a[dst], &a[src], n * sizeof a[0])`. -/
def memmove {α : Type} (a : List α) (dst src n : Nat) : List α :=
  write_at a dst ((a.drop src).take n)

/-- The session table: the global array `g_tcp_client_list` and the global
counter `g_tcp_client_list_length`. -/
structure tcp_table where
  g_tcp_client_list : List client_t
  g_tcp_client_list_length : Nat
deriving DecidableEq, Repr

/-- The sessions of the table: the first `g_tcp_client_list_length` slots. -/
def tcp_table.sessions (t : tcp_table) : List client_t :=
  t.g_tcp_client_list.take t.g_tcp_client_list_length

/-! ## mini_snmpd.c: compaction of the session table (main, lines 662-673) -/

/-- The `for` loop of lines 663-673 from index `i` on, at most `fuel`
iterations.  A slot whose `sockfd` is `-1` decrements the length and, when
it is not the last one, moves the slots behind it one place down; then `i`
is incremented.  `none` when the fuel runs out before `i` reaches the
length or a slot outside the array is read. -/
def compact_loop : Nat → Nat → tcp_table → Option tcp_table
  | 0, i, t => if i < t.g_tcp_client_list_length then none else some t
  | fuel + 1, i, t =>
    if i < t.g_tcp_client_list_length then
      match t.g_tcp_client_list[i]? with
      | none => none
      | some c =>
        if c.sockfd = -1 then
          let len := t.g_tcp_client_list_length - 1
          if i < len then
            compact_loop fuel (i + 1)
              { g_tcp_client_list := memmove t.g_tcp_client_list i (i + 1) (len - i),
                g_tcp_client_list_length := len }
          else
            compact_loop fuel (i + 1) { t with g_tcp_client_list_length := len }
        else
          compact_loop fuel (i + 1) t
    else
      some t

/-- The compaction pass at the end of a loop iteration: the loop run from
`i = 0`.  Every iteration increments `i` and none increases the length, so
the initial length bounds the number of iterations. -/
def compact (t : tcp_table) : Option tcp_table :=
  compact_loop t.g_tcp_client_list_length 0 t

/-! ## mini_snmpd.c: the transport handlers -/

/-- What the dispatcher `snmp()` (protocol.c) leaves behind: its return
value and the response packet it prepared in the client's buffer, with the
response size. -/
structure snmp_result where
  rv : Int
  packet : List Nat
  size : Nat
deriving DecidableEq, Repr

/-- What `recvfrom` delivered: the datagram and the peer's address and
port. -/
structure datagram where
  bytes : List Nat
  addr : Nat
  port : Int
deriving DecidableEq, Repr

/-- The handler `handle_udp_client` (lines 81-133).  `recv` is `none` when
`recvfrom` returned `-1`; otherwise the datagram is stored at the start of
the packet buffer and `rv` is its length.  `snmp` is the dispatcher. -/
def handle_udp_client (g_udp_sockfd : Int) (snmp : client_t → snmp_result)
    (recv : Option datagram) (now : Int) (g_udp_client : client_t) :
    client_t × List Event :=
  match recv with
  | none => (g_udp_client, [])
  | some d =>
    let c1 : client_t :=
      { timestamp := now,
        sockfd := g_udp_sockfd,
        addr := d.addr,
        port := d.port,
        packet := write_at g_udp_client.packet 0 d.bytes,
        size := d.bytes.length,
        outgoing := 0 }
    let r := snmp c1
    let c2 : client_t := { c1 with packet := r.packet, size := r.size }
    if r.rv = -1 then
      (c2, [Event.snmp c1])
    else if c2.size = 0 then
      (c2, [Event.snmp c1])
    else
      ({ c2 with outgoing := 1 },
        [Event.snmp c1, Event.sendto g_udp_sockfd (c2.packet.take c2.size) d.addr d.port])

/-- Modelled from the spec: `find_oldest_client` of utils.c, which is not
among the sources.  The spec says that on overflow the least-recently-active
session is evicted, the one with the oldest last-activity.  The scan keeps
the position and timestamp of the oldest session seen so far; a later
session replaces it only when strictly older. -/
def oldest_from : List client_t → Nat → Option (Nat × Int) → Option (Nat × Int)
  | [], _, best => best
  | c :: cs, i, none => oldest_from cs (i + 1) (some (i, c.timestamp))
  | c :: cs, i, some (pos, ts) =>
    if c.timestamp < ts then oldest_from cs (i + 1) (some (i, c.timestamp))
    else oldest_from cs (i + 1) (some (pos, ts))

/-- Modelled from the spec: `find_oldest_client` of utils.c, which is not
among the sources: the slot of the session with the oldest last-activity
timestamp, `none` (the C `NULL`) when the table holds no session. -/
def find_oldest_client (t : tcp_table) : Option Nat :=
  (oldest_from t.sessions 0 none).map Prod.fst

/-- The assignments of lines 185-190 to the chosen control block; the
packet buffer is not touched. -/
def fill_client (client : client_t) (rv : Int) (addr : Nat) (port : Int) (now : Int) :
    client_t :=
  { client with
    timestamp := now, sockfd := rv, addr := addr, port := port, size := 0, outgoing := 0 }

/-- The handler `handle_tcp_connect` (lines 135-191).  `find_oldest` is the
routine `find_oldest_client` of utils.c, which returns the slot of a session
or `none` for `NULL`; `rv` is what `accept` returned, `addr` and `port` the
peer it reported, `now` the clock, and `allocate` the fresh control block of
`allocate(sizeof(client_t))`, `none` when the allocation failed.
`MAX_NR_CLIENTS` and `FD_SETSIZE` are the constants of the headers.  A slot
outside the represented array is outside the embedding (`undefined`). -/
def handle_tcp_connect (find_oldest : tcp_table → Option Nat)
    (MAX_NR_CLIENTS FD_SETSIZE : Nat) (rv : Int) (addr : Nat)
    (port : Int) (now : Int) (allocate : Option client_t) (t : tcp_table) :
    Except Abort (tcp_table × List Event) :=
  if rv = -1 then
    .ok (t, [])
  else if rv ≥ FD_SETSIZE then
    .ok (t, [Event.close rv])
  else if t.g_tcp_client_list_length ≥ MAX_NR_CLIENTS then
    match find_oldest t with
    | none => .error (Abort.exit ExitCode.EXIT_SYSCALL)
    | some pos =>
      match t.g_tcp_client_list[pos]? with
      | none => .error Abort.undefined
      | some client =>
        .ok ({ t with
                g_tcp_client_list :=
                  t.g_tcp_client_list.set pos (fill_client client rv addr port now) },
             [Event.close client.sockfd])
  else
    match allocate with
    | none => .error (Abort.exit ExitCode.EXIT_SYSCALL)
    | some client =>
      if t.g_tcp_client_list.length < t.g_tcp_client_list_length then
        .error Abort.undefined
      else
        .ok ({ g_tcp_client_list :=
                 write_at t.g_tcp_client_list t.g_tcp_client_list_length
                   [fill_client client rv addr port now],
               g_tcp_client_list_length := t.g_tcp_client_list_length + 1 },
             [])

/-- The handler `handle_tcp_client_write` (lines 193-226); `rv` is what
`send` returned. -/
def handle_tcp_client_write (rv : Int) (client : client_t) : client_t × List Event :=
  let sent := Event.send client.sockfd (client.packet.take client.size)
  if rv = -1 then
    ({ client with sockfd := -1 }, [sent, Event.close client.sockfd])
  else if rv ≠ (client.size : Int) then
    ({ client with sockfd := -1 }, [sent, Event.close client.sockfd])
  else
    ({ client with size := 0, outgoing := 0 }, [sent])

/-- What `read` did: it failed, or it delivered these bytes (none at end of
stream). -/
inductive read_result where
  | failed
  | bytes (data : List Nat)
deriving DecidableEq, Repr

/-- The return value of `read`: `-1`, or the number of bytes delivered. -/
def read_result.rv : read_result → Int
  | .failed => -1
  | .bytes data => data.length

/-- The bytes `read` stored at `client->packet + client->size`. -/
def read_result.data : read_result → List Nat
  | .failed => []
  | .bytes data => data

/-- The second half of `handle_tcp_client_read` (lines 256-287), entered
with the session as the read bookkeeping left it: the framing test, and on
a complete packet the call of the dispatcher. -/
def dispatch_received (snmp_packet_complete : client_t → Int)
    (snmp : client_t → snmp_result) (c1 : client_t) : client_t × List Event :=
  let rv := snmp_packet_complete c1
  if rv = -1 then
    ({ c1 with sockfd := -1 }, [Event.close c1.sockfd])
  else if rv = 0 then
    (c1, [])
  else
    let c2 : client_t := { c1 with outgoing := 0 }
    let r := snmp c2
    let c3 : client_t := { c2 with packet := r.packet, size := r.size }
    if r.rv = -1 then
      ({ c3 with sockfd := -1 }, [Event.snmp c2, Event.close c3.sockfd])
    else if c3.size = 0 then
      ({ c3 with sockfd := -1 }, [Event.snmp c2, Event.close c3.sockfd])
    else
      ({ c3 with outgoing := 1 }, [Event.snmp c2])

/-- The handler `handle_tcp_client_read` (lines 228-288).  `rd` is the
outcome of `read`, `now` the clock; `snmp_packet_complete` and `snmp` are
the framing test and the dispatcher of protocol.c. -/
def handle_tcp_client_read (snmp_packet_complete : client_t → Int)
    (snmp : client_t → snmp_result) (rd : read_result) (now : Int) (client : client_t) :
    client_t × List Event :=
  let c0 : client_t := { client with packet := write_at client.packet client.size rd.data }
  if rd.rv = -1 then
    ({ c0 with sockfd := -1 }, [Event.close c0.sockfd])
  else if rd.rv = 0 then
    ({ c0 with sockfd := -1 }, [Event.close c0.sockfd])
  else
    dispatch_received snmp_packet_complete snmp
      { c0 with timestamp := now, size := c0.size + rd.rv.toNat }

/-- Successive calls of `handle_tcp_client_read` on one session, one per
pair of a `read` outcome and the clock at that call; the events of all
calls, oldest first. -/
def tcp_reads (snmp_packet_complete : client_t → Int) (snmp : client_t → snmp_result) :
    List (read_result × Int) → client_t → client_t × List Event
  | [], client => (client, [])
  | (rd, now) :: rest, client =>
    let r := handle_tcp_client_read snmp_packet_complete snmp rd now client
    let r2 := tcp_reads snmp_packet_complete snmp rest r.1
    (r2.1, r.2 ++ r2.2)

/-- The client states the dispatcher `snmp()` was called with, in call
order, read off a list of events. -/
def snmp_calls : List Event → List client_t
  | [] => []
  | Event.snmp client :: evs => client :: snmp_calls evs
  | Event.close _ :: evs => snmp_calls evs
  | Event.sendto _ _ _ _ :: evs => snmp_calls evs
  | Event.send _ _ :: evs => snmp_calls evs

/-- The datagrams handed to `sendto`, in call order, read off a list of
events: socket, bytes, destination address and port. -/
def sendto_calls : List Event → List (Int × List Nat × Nat × Int)
  | [] => []
  | Event.sendto fd bytes addr port :: evs => (fd, bytes, addr, port) :: sendto_calls evs
  | Event.snmp _ :: evs => sendto_calls evs
  | Event.close _ :: evs => sendto_calls evs
  | Event.send _ _ :: evs => sendto_calls evs

/-! ## mini_snmpd.c: main -/

/-- The address families `g_family` can hold. -/
inductive family where
  | AF_INET
  | AF_INET6
deriving DecidableEq, Repr

/-- The configuration globals that the socket set-up and the refresh timer
of `main` read. -/
structure config where
  g_family : family
  g_udp_port : Int
  g_tcp_port : Int
  g_timeout : Int
deriving DecidableEq, Repr

/-- The value an `int` holds after an operation whose mathematical result
is `x`: the result modulo `2^32` in two's complement.  (C leaves signed
overflow undefined; the compiled code wraps.) -/
def int_wrap (x : Int) : Int :=
  (x + 2 ^ 31) % 2 ^ 32 - 2 ^ 31

/-- One turn of the option switch of `main` (lines 368-451) on the fields of
`config`: `c` is the option character `getopt_long` returned and `optarg`
the `int` that `atoi(optarg)` returns for it.  The other options of
`short_options` that have a case set globals outside `config`; every other
character reaches the `default` case. -/
def parse_option (cfg : config) (c : Char) (optarg : Int) : Except Abort config :=
  if c = '4' then .ok { cfg with g_family := family.AF_INET }
  else if c = '6' then .ok { cfg with g_family := family.AF_INET6 }
  else if c = 'p' then .ok { cfg with g_udp_port := optarg }
  else if c = 'P' then .ok { cfg with g_tcp_port := optarg }
  else if c = 't' then .ok { cfg with g_timeout := int_wrap (optarg * 100) }
  else if c ∈ ['f', 'c', 'D', 'V', 'L', 'C', 'I', 'd', 'i', 'w', 'a', 'n', 's', 'v'] then
    .ok cfg
  else .error (Abort.exit ExitCode.EXIT_ARGS)

/-- The option loop of `main` (lines 363-452) over the options in command
line order. -/
def parse_options : config → List (Char × Int) → Except Abort config
  | cfg, [] => .ok cfg
  | cfg, (c, optarg) :: rest =>
    match parse_option cfg c optarg with
    | .error e => .error e
    | .ok cfg2 => parse_options cfg2 rest

/-- The 16-bit value `htons(x)` stores, read as the port number the field
carries on the wire (most significant byte first): the conversion of the
`int` argument to `uint16_t`. -/
def htons (x : Int) : Nat :=
  (x % 65536).toNat

/-- A socket address as `main` fills it before `bind`: family, port field
and the wildcard address (`inaddr_any` or `in6addr_any`). -/
structure sockaddr_t where
  sin_family : family
  sin_port : Nat
  sin_addr_any : Bool
deriving DecidableEq, Repr

/-- The address `main` passes to `bind(g_udp_sockfd, ...)` (lines 513-526);
both branches of the family test store the same port. -/
def udp_bind_sockaddr (cfg : config) : sockaddr_t :=
  match cfg.g_family with
  | family.AF_INET =>
    { sin_family := cfg.g_family, sin_port := htons cfg.g_udp_port, sin_addr_any := true }
  | family.AF_INET6 =>
    { sin_family := cfg.g_family, sin_port := htons cfg.g_udp_port, sin_addr_any := true }

/-- The address `main` passes to `bind(g_tcp_sockfd, ...)` (lines 564-577);
both branches store `htons(g_udp_port)`. -/
def tcp_bind_sockaddr (cfg : config) : sockaddr_t :=
  match cfg.g_family with
  | family.AF_INET =>
    { sin_family := cfg.g_family, sin_port := htons cfg.g_udp_port, sin_addr_any := true }
  | family.AF_INET6 =>
    { sin_family := cfg.g_family, sin_port := htons cfg.g_udp_port, sin_addr_any := true }

/-- The C type `struct timeval`. -/
structure timeval where
  tv_sec : Int
  tv_usec : Int
deriving DecidableEq, Repr

/-- How one stage of the loop body hands over: to the next statement, out of
the `while` loop (`break`, after which `main` returns `EXIT_OK`), or out of
the process. -/
inductive control where
  | next
  | leave
  | exit (code : ExitCode)
deriving DecidableEq, Repr

/-- What `select` reported: its return value and the error number it left
in `errno`. -/
structure select_result where
  rv : Int
  errno : Int
deriving DecidableEq, Repr

/-- The error number `EINTR` of `errno.h` on Linux. -/
def EINTR : Int := 4

/-- The readiness wait of lines 614-620: `sel` is the outcome of `select`,
`g_quit` the flag the signal handler sets.  The code reads the return value
and the flag; the error number is only printed by the log line. -/
def after_select (sel : select_result) (g_quit : Int) : control :=
  if sel.rv = -1 then
    if g_quit ≠ 0 then control.leave
    else control.exit ExitCode.EXIT_SYSCALL
  else control.next

/-- The state of the refresh timer: the origin of the current interval and
the timeout of the next `select`. -/
structure timer where
  tv_last : timeval
  tv_sleep : timeval
deriving DecidableEq, Repr

/-- The refresh stage of lines 622-639.  `ticks` is what `ticks_since`
(utils.c) returned, `tv_now` the time it stored, and `mib_update` the return
value of the MIB refresh for the argument it is called with.  The result
holds the new timer and the argument of the `mib_update` call made.  The
`/` and `%` of C truncate towards zero. -/
def refresh_stage (g_timeout : Int) (ticks : Int) (tv_now : timeval)
    (mib_update : Int → Int) (tm : timer) : Except Abort (timer × Int) :=
  if ticks < 0 ∨ ticks ≥ g_timeout then
    if mib_update 1 = -1 then .error (Abort.exit ExitCode.EXIT_SYSCALL)
    else
      .ok ({ tv_last := tv_now,
             tv_sleep :=
               { tv_sec := Int.tdiv g_timeout 100,
                 tv_usec := Int.tmod g_timeout 100 * 10000 } }, 1)
  else
    if mib_update 0 = -1 then .error (Abort.exit ExitCode.EXIT_SYSCALL)
    else
      .ok ({ tm with
             tv_sleep :=
               { tv_sec := Int.tdiv (g_timeout - ticks) 100,
                 tv_usec := Int.tmod (g_timeout - ticks) 100 * 10000 } }, 0)

/-! ## linux.c: floating-point arithmetic

The collectors compute in `float` and `double`.  The embedding takes the two
types to be IEEE 754 binary32 and binary64 with round-to-nearest, ties to
even, and every operation rounded to its type (`FLT_EVAL_METHOD` 0, as on
x86-64 and ARM Linux).  A finite floating-point value is a dyadic number
`m * 2^e`.  Overflow and subnormal numbers are not represented: the values
of the collectors stay far inside the normal range.  A division by zero has
no finite result (it is an infinity or a NaN) and is `none`.  The
conversion of a floating-point value to `unsigned int` is the one of the
x86-64 code: truncation to a signed 64-bit integer, of which the low 32 bits
are kept; an infinity, a NaN or a value outside the 64-bit range gives 0.
(C leaves the conversion undefined when the integral part does not fit.) -/

/-- The dyadic number `m * 2^e`. -/
structure dyadic where
  m : Int
  e : Int
deriving DecidableEq, Repr

/-- The number of binary digits of `n`, counted with at most `fuel` steps. -/
def bitlen_aux : Nat → Nat → Nat
  | 0, _ => 0
  | fuel + 1, n => if n = 0 then 0 else bitlen_aux fuel (n / 2) + 1

/-- The number of binary digits of `n` (`0` for `n = 0`). -/
def bitlen (n : Nat) : Nat := bitlen_aux n n

/-- The quotient `num / den` rounded to the nearest integer, ties to
even. -/
def round_half_even (num den : Nat) : Nat :=
  let f := num / den
  let r := num % den
  if 2 * r < den then f
  else if den < 2 * r then f + 1
  else if f % 2 = 0 then f else f + 1

/-- The number `(n / d) * 2^e`, with `n, d > 0`, rounded to the nearest
dyadic with a significand of `p` bits, ties to even.  The numerator is
scaled by `2^s` so that the integer quotient has more than `p` digits; the
`k` digits beyond the `p`-th are then rounded away. -/
def round_ratio (p : Nat) (n d : Nat) (e : Int) : Nat × Int :=
  let s := p + 1 + bitlen d
  let k := bitlen (n * 2 ^ s / d) - p
  (round_half_even (n * 2 ^ s) (d * 2 ^ k), e - (s : Int) + (k : Int))

/-- A dyadic rounded to a significand of `p` bits. -/
def fp_round (p : Nat) (x : dyadic) : dyadic :=
  if x.m = 0 then { m := 0, e := 0 }
  else
    let r := round_ratio p x.m.natAbs 1 x.e
    { m := if x.m < 0 then -(r.1 : Int) else (r.1 : Int), e := r.2 }

/-- The exact sum of two dyadics. -/
def dyadic.add (a b : dyadic) : dyadic :=
  let e := min a.e b.e
  { m := a.m * 2 ^ (a.e - e).toNat + b.m * 2 ^ (b.e - e).toNat, e := e }

/-- The exact difference of two dyadics. -/
def dyadic.sub (a b : dyadic) : dyadic :=
  dyadic.add a { b with m := -b.m }

/-- The exact product of two dyadics. -/
def dyadic.mul (a b : dyadic) : dyadic :=
  { m := a.m * b.m, e := a.e + b.e }

/-- The integer `n` as a dyadic. -/
def dyadic.ofInt (n : Int) : dyadic := { m := n, e := 0 }

/-- The sum of two floating-point numbers of `p` significand bits. -/
def fp_add (p : Nat) (a b : dyadic) : dyadic := fp_round p (a.add b)

/-- The difference of two floating-point numbers of `p` significand bits. -/
def fp_sub (p : Nat) (a b : dyadic) : dyadic := fp_round p (a.sub b)

/-- The product of two floating-point numbers of `p` significand bits. -/
def fp_mul (p : Nat) (a b : dyadic) : dyadic := fp_round p (a.mul b)

/-- The quotient of two floating-point numbers of `p` significand bits;
`none` when the divisor is zero. -/
def fp_div (p : Nat) (a b : dyadic) : Option dyadic :=
  if b.m = 0 then none
  else if a.m = 0 then some { m := 0, e := 0 }
  else
    let r := round_ratio p a.m.natAbs b.m.natAbs (a.e - b.e)
    some { m := if (a.m < 0) = (b.m < 0) then (r.1 : Int) else -(r.1 : Int), e := r.2 }

/-- Conversion of an integer to a floating-point number of `p` bits. -/
def fp_of_int (p : Nat) (n : Int) : dyadic := fp_round p (dyadic.ofInt n)

/-- Conversion of a finite floating-point value to `unsigned int`: the
value is truncated towards zero to a signed 64-bit integer and the low 32
bits are kept (two's complement for a negative value); a value outside the
64-bit range gives 0. -/
def to_unsigned (x : dyadic) : Nat :=
  let t : Int :=
    if 0 ≤ x.e then x.m * ((2 ^ x.e.toNat : Nat) : Int)
    else Int.tdiv x.m ((2 ^ (-x.e).toNat : Nat) : Int)
  if t.natAbs < 2 ^ 63 then (t % ((2 ^ 32 : Nat) : Int)).toNat else 0

/-- Conversion of a quotient to `unsigned int`: a quotient by zero is an
infinity or a NaN and gives 0. -/
def quotient_to_unsigned (q : Option dyadic) : Nat :=
  match q with
  | none => 0
  | some x => to_unsigned x

/-- The significand width of `float`. -/
def FLT : Nat := 24

/-- The significand width of `double`. -/
def DBL : Nat := 53

/-! ## linux.c: the collectors -/

/-- The first call of `get_process_uptime` finds the static variable
`uptime_start` at `0`. -/
def uptime_start_init : Nat := 0

/-- The routine `get_process_uptime` (lines 46-55) with its static variable
passed in and out: `uptime_start` is the value the static variable holds at
the call and `uptime_now` what `get_system_uptime()` returned.  The result
is the return value and the new value of the static variable; both are
`unsigned int`. -/
def get_process_uptime (uptime_start uptime_now : Nat) : Nat × Nat :=
  let start := if uptime_start = 0 then uptime_now else uptime_start
  ((uptime_now + 2 ^ 32 - start) % 2 ^ 32, start)

/-- Successive calls of `get_process_uptime`, one per reading of the system
uptime: the values returned, in call order, and the final value of the
static variable. -/
def process_uptimes : Nat → List Nat → List Nat × Nat
  | start, [] => ([], start)
  | start, u :: us =>
    let r := get_process_uptime start u
    let rest := process_uptimes r.2 us
    (r.1 :: rest.1, rest.2)

/-- The routine `get_system_uptime` (lines 58-66).  `file` is the text
`read_file` put into the buffer, `none` when it returned `-1`; `atof` is the
C library conversion.  The `-1` of the error path is converted to the
`unsigned int` return type. -/
def get_system_uptime (file : Option (List Char)) (atof : List Char → dyadic) : Nat :=
  match file with
  | none => 2 ^ 32 - 1
  | some buf => to_unsigned (fp_mul DBL (atof buf) (fp_of_int DBL 100))

/-- The record `loadinfo_t`: the array `avg`. -/
structure loadinfo_t where
  avg : Nat → Nat

/-- The test `isspace` in the C locale. -/
def isspace (c : Char) : Bool :=
  c = ' ' || c = '\t' || c = '\n' || c = '\r' || c.toNat = 11 || c.toNat = 12

/-- The loop `while (isspace(*ptr)) ptr++`. -/
def skip_spaces : List Char → List Char
  | [] => []
  | c :: cs => if isspace c then skip_spaces cs else c :: cs

/-- The loop of lines 80-86 of `get_loadinfo` from index `i` on, `k`
iterations: `ptr` is the rest of the text (empty at the terminating NUL),
and `strtod` returns the value read and the text behind it. -/
def loadavg_loop (strtod : List Char → dyadic × List Char) :
    Nat → Nat → List Char → loadinfo_t → loadinfo_t
  | 0, _, _, loadinfo => loadinfo
  | k + 1, i, ptr, loadinfo =>
    let ptr1 := skip_spaces ptr
    if ptr1 ≠ [] then
      let r := strtod ptr1
      loadavg_loop strtod k (i + 1) r.2
        { avg := Function.update loadinfo.avg i (to_unsigned (fp_mul DBL r.1 (fp_of_int DBL 100))) }
    else
      loadavg_loop strtod k (i + 1) ptr1 loadinfo

/-- The routine `get_loadinfo` (lines 68-87); `file` is as in
`get_system_uptime`. -/
def get_loadinfo (file : Option (List Char)) (strtod : List Char → dyadic × List Char)
    (loadinfo : loadinfo_t) : loadinfo_t :=
  match file with
  | none => { avg := fun _ => 0 }
  | some buf => loadavg_loop strtod 3 0 buf loadinfo

/-- The record `meminfo_t`. -/
structure meminfo_t where
  total : Nat
  free : Nat
  shared : Nat
  buffers : Nat
  cached : Nat
deriving DecidableEq, Repr

/-- The routine `get_meminfo` (lines 89-102): `rv` is what `parse_file`
returned and `parsed` the record as `parse_file` left it. -/
def get_meminfo (rv : Int) (parsed : meminfo_t) : meminfo_t :=
  if rv ≠ 0 then { total := 0, free := 0, shared := 0, buffers := 0, cached := 0 }
  else parsed

/-- The record `cpuinfo_t`. -/
structure cpuinfo_t where
  user : Nat
  nice : Nat
  system : Nat
  idle : Nat
  irqs : Nat
  cntxts : Nat
deriving DecidableEq, Repr

/-- The routine `get_cpuinfo` (lines 104-115): `rv` is what `parse_file`
returned and `parsed` the record as `parse_file` left it. -/
def get_cpuinfo (rv : Int) (parsed : cpuinfo_t) : cpuinfo_t :=
  if rv ≠ 0 then { user := 0, nice := 0, system := 0, idle := 0, irqs := 0, cntxts := 0 }
  else parsed

/-- The fields of `struct statfs` that `get_diskinfo` reads.  The counts are
unsigned 64-bit, the block size is a `long`. -/
structure statfs_t where
  f_bsize : Int
  f_blocks : Nat
  f_bfree : Nat
  f_files : Nat
  f_ffree : Nat
deriving DecidableEq, Repr

/-- The record `diskinfo_t`: five arrays indexed by the disk. -/
structure diskinfo_t where
  total : Nat → Nat
  free : Nat → Nat
  used : Nat → Nat
  blocks_used_percent : Nat → Nat
  inodes_used_percent : Nat → Nat

/-- The five values `get_diskinfo` stores for one disk. -/
structure disk_values where
  total : Nat
  free : Nat
  used : Nat
  blocks_used_percent : Nat
  inodes_used_percent : Nat
deriving DecidableEq, Repr

/-- The difference `a - b` of two unsigned 64-bit counts. -/
def sub64 (a b : Nat) : Nat := (a + 2 ^ 64 - b % 2 ^ 64) % 2 ^ 64

/-- The expression `((float)count * fs.f_bsize) / 1024` of lines 132-134,
converted to `unsigned int`. -/
def kilobytes (count : Nat) (f_bsize : Int) : Nat :=
  quotient_to_unsigned
    (fp_div FLT (fp_mul FLT (fp_of_int FLT count) (fp_of_int FLT f_bsize))
      (fp_of_int FLT 1024))

/-- The expression `((float)used * 100 + all - 1) / all` of lines 136 and
141, converted to `unsigned int`. -/
def used_percent (used all : Nat) : Nat :=
  quotient_to_unsigned
    (fp_div FLT
      (fp_sub FLT
        (fp_add FLT (fp_mul FLT (fp_of_int FLT used) (fp_of_int FLT 100)) (fp_of_int FLT all))
        (fp_of_int FLT 1))
      (fp_of_int FLT all))

/-- The body of the loop of `get_diskinfo` (lines 123-141) for one disk:
`fs` is what `statfs` stored, `none` when it returned `-1`. -/
def disk_entry (fs : Option statfs_t) : disk_values :=
  match fs with
  | none =>
    { total := 0, free := 0, used := 0, blocks_used_percent := 0, inodes_used_percent := 0 }
  | some fs =>
    { total := kilobytes fs.f_blocks fs.f_bsize,
      free := kilobytes fs.f_bfree fs.f_bsize,
      used := kilobytes (sub64 fs.f_blocks fs.f_bfree) fs.f_bsize,
      blocks_used_percent := used_percent (sub64 fs.f_blocks fs.f_bfree) fs.f_blocks,
      inodes_used_percent :=
        if fs.f_files ≤ 0 then 0
        else used_percent (sub64 fs.f_files fs.f_ffree) fs.f_files }

/-- The five values the record holds for disk `i`. -/
def diskinfo_t.values (d : diskinfo_t) (i : Nat) : disk_values :=
  { total := d.total i, free := d.free i, used := d.used i,
    blocks_used_percent := d.blocks_used_percent i,
    inodes_used_percent := d.inodes_used_percent i }

/-- The record after the values of disk `i` were stored. -/
def diskinfo_t.store (d : diskinfo_t) (i : Nat) (v : disk_values) : diskinfo_t :=
  { total := Function.update d.total i v.total,
    free := Function.update d.free i v.free,
    used := Function.update d.used i v.used,
    blocks_used_percent := Function.update d.blocks_used_percent i v.blocks_used_percent,
    inodes_used_percent := Function.update d.inodes_used_percent i v.inodes_used_percent }

/-- The loop of `get_diskinfo` from disk `i` on; the list holds the outcome
of `statfs` for each remaining disk of `g_disk_list`. -/
def get_diskinfo_from : Nat → List (Option statfs_t) → diskinfo_t → diskinfo_t
  | _, [], diskinfo => diskinfo
  | i, fs :: rest, diskinfo => get_diskinfo_from (i + 1) rest (diskinfo.store i (disk_entry fs))

/-- The routine `get_diskinfo` (lines 117-143): `statfs` holds, for each
disk of `g_disk_list` in order, what the system call stored. -/
def get_diskinfo (statfs : List (Option statfs_t)) (diskinfo : diskinfo_t) : diskinfo_t :=
  get_diskinfo_from 0 statfs diskinfo

/-- The eight counters of one interface that `parse_file` fills from
`/proc/net/dev`. -/
structure if_counters where
  rx_bytes : Nat
  rx_packets : Nat
  rx_errors : Nat
  rx_drops : Nat
  tx_bytes : Nat
  tx_packets : Nat
  tx_errors : Nat
  tx_drops : Nat
deriving DecidableEq, Repr

/-- The record `netinfo_t`: arrays indexed by the interface. -/
structure netinfo_t where
  status : Nat → Nat
  rx_bytes : Nat → Nat
  rx_packets : Nat → Nat
  rx_errors : Nat → Nat
  rx_drops : Nat → Nat
  tx_bytes : Nat → Nat
  tx_packets : Nat → Nat
  tx_errors : Nat → Nat
  tx_drops : Nat → Nat
  mac_addr : Nat → List Nat

/-- The record after `memset(netinfo, 0, sizeof(*netinfo))`. -/
def netinfo_zero : netinfo_t :=
  { status := fun _ => 0, rx_bytes := fun _ => 0, rx_packets := fun _ => 0,
    rx_errors := fun _ => 0, rx_drops := fun _ => 0, tx_bytes := fun _ => 0,
    tx_packets := fun _ => 0, tx_errors := fun _ => 0, tx_drops := fun _ => 0,
    mac_addr := fun _ => [0, 0, 0, 0, 0, 0] }

/-- The flag `IFF_UP` of `net/if.h`. -/
def IFF_UP : Nat := 0x1

/-- The flag `IFF_RUNNING` of `net/if.h`. -/
def IFF_RUNNING : Nat := 0x40

/-- What the two `ioctl` calls on one interface reported: the return value
of `SIOCGIFFLAGS` with the flags it stored, and the return value of
`SIOCGIFHWADDR` with the address bytes it stored. -/
structure ifreq_result where
  flags_rv : Int
  ifr_flags : Nat
  hwaddr_rv : Int
  sa_data : List Nat
deriving DecidableEq, Repr

/-- The body of the interface loop of `get_netinfo` (lines 165-178) for
interface `i`; `fd` is the socket. -/
def netinfo_entry (fd : Int) (q : ifreq_result) (i : Nat) (netinfo : netinfo_t) : netinfo_t :=
  if fd = -1 ∨ q.flags_rv = -1 then
    { netinfo with status := Function.update netinfo.status i 4 }
  else
    let n1 : netinfo_t :=
      if q.ifr_flags &&& IFF_UP ≠ 0 then
        { netinfo with
          status :=
            Function.update netinfo.status i (if q.ifr_flags &&& IFF_RUNNING ≠ 0 then 1 else 7) }
      else
        { netinfo with status := Function.update netinfo.status i 2 }
    if q.hwaddr_rv = -1 then n1
    else { n1 with mac_addr := Function.update n1.mac_addr i (q.sa_data.take 6) }

/-- The interface loop of `get_netinfo` from interface `i` on; the list
holds the outcome of the queries for each remaining interface. -/
def netinfo_loop (fd : Int) : Nat → List ifreq_result → netinfo_t → netinfo_t
  | _, [], netinfo => netinfo
  | i, q :: rest, netinfo => netinfo_loop fd (i + 1) rest (netinfo_entry fd q i netinfo)

/-- The record after `parse_file` stored through the pointers of `fields`:
`counters i` holds the eight counters of interface `i` as the call left
them, for the `n` configured interfaces. -/
def store_counters (n : Nat) (counters : Nat → if_counters) (netinfo : netinfo_t) :
    netinfo_t :=
  { netinfo with
    rx_bytes := fun i => if i < n then (counters i).rx_bytes else netinfo.rx_bytes i,
    rx_packets := fun i => if i < n then (counters i).rx_packets else netinfo.rx_packets i,
    rx_errors := fun i => if i < n then (counters i).rx_errors else netinfo.rx_errors i,
    rx_drops := fun i => if i < n then (counters i).rx_drops else netinfo.rx_drops i,
    tx_bytes := fun i => if i < n then (counters i).tx_bytes else netinfo.tx_bytes i,
    tx_packets := fun i => if i < n then (counters i).tx_packets else netinfo.tx_packets i,
    tx_errors := fun i => if i < n then (counters i).tx_errors else netinfo.tx_errors i,
    tx_drops := fun i => if i < n then (counters i).tx_drops else netinfo.tx_drops i }

/-- The routine `get_netinfo` (lines 145-185).  `fd` is what `socket`
returned, `queries` the outcome of the `ioctl` calls for each interface of
`g_interface_list` in order, `parse_rv` what `parse_file` returned and
`counters` the counters as it left them. -/
def get_netinfo (fd : Int) (queries : List ifreq_result) (parse_rv : Int)
    (counters : Nat → if_counters) (netinfo : netinfo_t) : netinfo_t :=
  let n1 := netinfo_loop fd 0 queries netinfo
  let n2 := store_counters queries.length counters n1
  if parse_rv ≠ 0 then netinfo_zero else n2

/-- The flag `IW_QUAL_DBM` of `linux/wireless.h`. -/
def IW_QUAL_DBM : Nat := 0x08

/-- The flag `IW_QUAL_LEVEL_INVALID` of `linux/wireless.h`. -/
def IW_QUAL_LEVEL_INVALID : Nat := 0x20

/-- The flag `IW_QUAL_NOISE_INVALID` of `linux/wireless.h`. -/
def IW_QUAL_NOISE_INVALID : Nat := 0x40

/-- The flag `IW_QUAL_RCPI` of `linux/wireless.h`. -/
def IW_QUAL_RCPI : Nat := 0x80

/-- The C type `struct iw_quality`: four unsigned bytes. -/
structure iw_quality where
  qual : Nat
  level : Nat
  noise : Nat
  updated : Nat
deriving DecidableEq, Repr

/-- The outcome of an `ioctl` that fills a `struct iw_quality`: the return
value and the structure as the call left it (`iw_s.qual` for
`SIOCGIWSTATS`, `iw_r.max_qual` for `SIOCGIWRANGE`). -/
structure iw_result where
  rc : Int
  q : iw_quality
deriving DecidableEq, Repr

/-- The result of `get_wireless_sn`: the return value and the two
outputs. -/
structure wireless_sn where
  rv : Int
  signal : Int
  noise : Int
deriving DecidableEq, Repr

/-- The routine `get_wireless_sn` (lines 187-248).  `fd` is what `socket`
returned, `stats` the outcome of `SIOCGIWSTATS` and `range` the outcome of
`SIOCGIWRANGE`, which is issued only on the relative-quality path. -/
def get_wireless_sn (fd : Int) (stats range : iw_result) : wireless_sn :=
  if fd < 0 then { rv := -1, signal := 0, noise := 0 }
  else if stats.rc < 0 then { rv := -1, signal := 0, noise := 0 }
  else
    let iw_s := stats.q
    if iw_s.updated &&& IW_QUAL_RCPI ≠ 0 then
      { rv := 0,
        signal :=
          if ¬ (iw_s.updated &&& IW_QUAL_LEVEL_INVALID ≠ 0) then ((iw_s.level / 2 : Nat) : Int) - 110
          else 0,
        noise :=
          if ¬ (iw_s.updated &&& IW_QUAL_NOISE_INVALID ≠ 0) then ((iw_s.noise / 2 : Nat) : Int) - 110
          else 0 }
    else if iw_s.updated &&& IW_QUAL_DBM ≠ 0 then
      { rv := 0,
        signal :=
          if ¬ (iw_s.updated &&& IW_QUAL_LEVEL_INVALID ≠ 0) then (iw_s.level : Int) - 256 else 0,
        noise :=
          if ¬ (iw_s.updated &&& IW_QUAL_NOISE_INVALID ≠ 0) then (iw_s.noise : Int) - 256 else 0 }
    else if range.rc < 0 then { rv := -1, signal := 0, noise := 0 }
    else
      { rv := 0,
        signal :=
          if ¬ (iw_s.updated &&& IW_QUAL_LEVEL_INVALID ≠ 0) ∧ range.q.level ≠ 0 then
            ((100 * iw_s.level / range.q.level : Nat) : Int)
          else 0,
        noise :=
          if ¬ (iw_s.updated &&& IW_QUAL_NOISE_INVALID ≠ 0) ∧ range.q.noise ≠ 0 then
            ((100 * iw_s.noise / range.q.noise : Nat) : Int)
          else 0 }

/-- The record `wirelessinfo_t`: two arrays indexed by the interface. -/
structure wirelessinfo_t where
  signal : Nat → Int
  noise : Nat → Int

/-- The outcome of the system calls `get_wireless_sn` makes for one
interface. -/
structure wireless_query where
  fd : Int
  stats : iw_result
  range : iw_result
deriving DecidableEq, Repr

/-- The loop of `get_wirelessinfo` from interface `i` on. -/
def wirelessinfo_loop : Nat → List wireless_query → wirelessinfo_t → wirelessinfo_t
  | _, [], w => w
  | i, q :: rest, w =>
    let r := get_wireless_sn q.fd q.stats q.range
    wirelessinfo_loop (i + 1) rest
      { signal := Function.update w.signal i r.signal,
        noise := Function.update w.noise i r.noise }

/-- The routine `get_wirelessinfo` (lines 250-261): `queries` holds the
outcome of the system calls for each interface of `g_wireless_list`. -/
def get_wirelessinfo (queries : List wireless_query) (wirelessinfo : wirelessinfo_t) :
    wirelessinfo_t :=
  wirelessinfo_loop 0 queries wirelessinfo

/-! ## The session table over the event loop -/

/-- The session table when the event loop starts: no slot written and
`g_tcp_client_list_length = 0`. -/
def tcp_table_init : tcp_table :=
  { g_tcp_client_list := [], g_tcp_client_list_length := 0 }

/-- The bound on the session table: the length counter does not exceed the
slots written so far, and no slot lies at index `MAX_NR_CLIENTS` or
beyond. -/
def table_bounded (MAX_NR_CLIENTS : Nat) (t : tcp_table) : Prop :=
  t.g_tcp_client_list_length ≤ t.g_tcp_client_list.length ∧
    t.g_tcp_client_list.length ≤ MAX_NR_CLIENTS

/-- The session tables the event loop of `main` (lines 596-674) can reach
from the initial one: by a call of `handle_tcp_connect` that returns, by a
read or write handler that rewrites the control block of a session (the
handlers get the pointer `g_tcp_client_list[i]` for an `i` below the
length and touch nothing else of the table), and by a compaction pass. -/
inductive loop_reachable (find_oldest : tcp_table → Option Nat)
    (MAX_NR_CLIENTS FD_SETSIZE : Nat) : tcp_table → Prop where
  | init : loop_reachable find_oldest MAX_NR_CLIENTS FD_SETSIZE tcp_table_init
  | connect (t t2 : tcp_table) (rv : Int) (addr : Nat) (port now : Int)
      (allocate : Option client_t) (ev : List Event) :
      loop_reachable find_oldest MAX_NR_CLIENTS FD_SETSIZE t →
      handle_tcp_connect find_oldest MAX_NR_CLIENTS FD_SETSIZE rv addr port now allocate t
        = .ok (t2, ev) →
      loop_reachable find_oldest MAX_NR_CLIENTS FD_SETSIZE t2
  | session (t : tcp_table) (i : Nat) (client : client_t) :
      loop_reachable find_oldest MAX_NR_CLIENTS FD_SETSIZE t →
      i < t.g_tcp_client_list_length →
      loop_reachable find_oldest MAX_NR_CLIENTS FD_SETSIZE
        { t with g_tcp_client_list := t.g_tcp_client_list.set i client }
  | compaction (t t2 : tcp_table) :
      loop_reachable find_oldest MAX_NR_CLIENTS FD_SETSIZE t →
      compact t = some t2 →
      loop_reachable find_oldest MAX_NR_CLIENTS FD_SETSIZE t2

/-! ## Example inputs -/

/-- A framing test for messages of five bytes: incomplete while fewer than
five bytes are buffered, complete from then on. -/
def example_packet_complete (c : client_t) : Int :=
  if (c.packet.take c.size).length < 5 then 0 else 1

/-- A dispatcher that answers every request with the two bytes 7, 9. -/
def example_snmp (_ : client_t) : snmp_result :=
  { rv := 0, packet := [7, 9], size := 2 }

/-- An inbound session with an empty receive buffer of eight bytes. -/
def example_client : client_t :=
  { timestamp := 100, sockfd := 5, addr := 1, port := 1001,
    packet := [0, 0, 0, 0, 0, 0, 0, 0], size := 0, outgoing := 0 }

/-! ## Theorems: the session table -/

/-- C1, evaluated on the code: a table of three sessions whose first two
sockets are closed (`sockfd = -1`) and whose third is open.  The compaction
pass removes the first session only: the closed session that moved into
slot 0 is skipped when `i` advances, so the table it leaves still holds a
session with `sockfd = -1` and is not the list of the open sessions. -/
theorem compact_skips_adjacent_closed_session :
    (compact
        { g_tcp_client_list :=
            [{ timestamp := 10, sockfd := -1, addr := 1, port := 1001, packet := [], size := 0,
               outgoing := 0 },
             { timestamp := 20, sockfd := -1, addr := 2, port := 1002, packet := [], size := 0,
               outgoing := 0 },
             { timestamp := 30, sockfd := 7, addr := 3, port := 1003, packet := [], size := 0,
               outgoing := 0 }],
          g_tcp_client_list_length := 3 }).map tcp_table.sessions
      = some
          [{ timestamp := 20, sockfd := -1, addr := 2, port := 1002, packet := [], size := 0,
             outgoing := 0 },
           { timestamp := 30, sockfd := 7, addr := 3, port := 1003, packet := [], size := 0,
             outgoing := 0 }] := by
  decide

/-! ## Theorems: the listening sockets -/

/-- C2, evaluated on the code: with the options `-p 161 -P 1161` the
configuration holds UDP port 161 and TCP port 1161, the UDP socket is bound
to port 161, and the TCP socket is bound to port 161 as well, not to the
configured TCP port 1161. -/
theorem tcp_socket_bound_to_udp_port :
    ∃ cfg : config,
      parse_options
          { g_family := family.AF_INET, g_udp_port := 161, g_tcp_port := 161, g_timeout := 100 }
          [('p', 161), ('P', 1161)] = .ok cfg ∧
      cfg.g_udp_port = 161 ∧ cfg.g_tcp_port = 1161 ∧
      (udp_bind_sockaddr cfg).sin_port = 161 ∧
      (tcp_bind_sockaddr cfg).sin_port = 161 ∧
      (tcp_bind_sockaddr cfg).sin_port ≠ htons cfg.g_tcp_port := by
  refine ⟨{ g_family := family.AF_INET, g_udp_port := 161, g_tcp_port := 1161,
            g_timeout := 100 }, ?_, ?_, ?_, ?_, ?_, ?_⟩ <;> first | rfl | decide

/-- The scan of `oldest_from` returns a position and a timestamp as soon as
there is a session or a candidate; the timestamp is a lower bound of all
timestamps seen, and it belongs either to the candidate or to the session at
the returned position. -/
theorem oldest_from_some (l : List client_t) :
    ∀ (i : Nat) (best : Option (Nat × Int)), (l ≠ [] ∨ best ≠ none) →
      ∃ pos ts, oldest_from l i best = some (pos, ts) ∧
        (∀ c ∈ l, ts ≤ c.timestamp) ∧ (∀ b, best = some b → ts ≤ b.2) ∧
        (best = some (pos, ts) ∨
          ∃ k, k < l.length ∧ pos = i + k ∧ (l[k]?).map client_t.timestamp = some ts) := by
  induction l with
  | nil =>
    intro i best h
    rcases h with h | h
    · exact absurd rfl h
    · cases best with
      | none => exact absurd rfl h
      | some b =>
        refine ⟨b.1, b.2, rfl, ?_, ?_, Or.inl rfl⟩
        · intro c hc; cases hc
        · intro b2 hb; cases hb; exact le_refl _
  | cons c cs ih =>
    intro i best _
    cases best with
    | none =>
      obtain ⟨pos, ts, h1, h2, h3, h4⟩ := ih (i + 1) (some (i, c.timestamp)) (Or.inr (by simp))
      refine ⟨pos, ts, by simpa [oldest_from] using h1, ?_, ?_, ?_⟩
      · intro c2 hc2
        rcases List.mem_cons.mp hc2 with rfl | hc2
        · exact h3 _ rfl
        · exact h2 _ hc2
      · intro b hb; cases hb
      · right
        rcases h4 with h4 | ⟨k, hk, hpos, hts⟩
        · simp only [Option.some.injEq, Prod.mk.injEq] at h4
          exact ⟨0, by simp, by omega, by simp [h4.2]⟩
        · exact ⟨k + 1, by simp; omega, by omega, by simpa using hts⟩
    | some b =>
      obtain ⟨p, t⟩ := b
      by_cases hlt : c.timestamp < t
      · obtain ⟨pos, ts, h1, h2, h3, h4⟩ :=
          ih (i + 1) (some (i, c.timestamp)) (Or.inr (by simp))
        refine ⟨pos, ts, by simpa [oldest_from, hlt] using h1, ?_, ?_, ?_⟩
        · intro c2 hc2
          rcases List.mem_cons.mp hc2 with rfl | hc2
          · exact h3 _ rfl
          · exact h2 _ hc2
        · intro b hb
          cases hb
          have := h3 _ rfl
          simp only at this ⊢
          omega
        · right
          rcases h4 with h4 | ⟨k, hk, hpos, hts⟩
          · simp only [Option.some.injEq, Prod.mk.injEq] at h4
            exact ⟨0, by simp, by omega, by simp [h4.2]⟩
          · exact ⟨k + 1, by simp; omega, by omega, by simpa using hts⟩
      · obtain ⟨pos, ts, h1, h2, h3, h4⟩ := ih (i + 1) (some (p, t)) (Or.inr (by simp))
        refine ⟨pos, ts, by simpa [oldest_from, hlt] using h1, ?_, ?_, ?_⟩
        · intro c2 hc2
          rcases List.mem_cons.mp hc2 with rfl | hc2
          · have := h3 _ rfl
            simp only at this
            omega
          · exact h2 _ hc2
        · intro b hb
          cases hb
          exact h3 _ rfl
        · rcases h4 with h4 | ⟨k, hk, hpos, hts⟩
          · exact Or.inl h4
          · exact Or.inr ⟨k + 1, by simp; omega, by omega, by simpa using hts⟩

/-- On a table that holds a session, `find_oldest_client` returns the slot
of a session whose timestamp no session of the table precedes. -/
theorem find_oldest_client_spec (t : tcp_table) (hne : t.sessions ≠ []) :
    ∃ pos client, find_oldest_client t = some pos ∧ pos < t.sessions.length ∧
      t.sessions[pos]? = some client ∧ ∀ c ∈ t.sessions, client.timestamp ≤ c.timestamp := by
  obtain ⟨pos, ts, h1, h2, _, h4⟩ := oldest_from_some t.sessions 0 none (Or.inl hne)
  rcases h4 with h4 | ⟨k, hk, hpos, hts⟩
  · cases h4
  · have hpk : pos = k := by omega
    subst hpk
    have hsome : t.sessions[pos]? = some (t.sessions[pos]) := List.getElem?_eq_getElem hk
    refine ⟨pos, t.sessions[pos], by simp [find_oldest_client, h1], hk, hsome, ?_⟩
    intro c hc
    rw [hsome] at hts
    simp only [Option.map_some', Option.some.injEq] at hts
    rw [hts]
    exact h2 c hc

/-- C3: let `find_oldest` return, for every table that holds a session, the
slot of a session whose timestamp no session of the table precedes (the
contract of `find_oldest_client`).  When the table is full
(`MAX_NR_CLIENTS` sessions or more, with `MAX_NR_CLIENTS > 0`) and `accept`
returned a descriptor below `FD_SETSIZE`, `handle_tcp_connect` returns
normally and exactly one slot is affected: the slot `find_oldest` returns,
whose session has the oldest timestamp of the table.  The socket of that
session is closed (the only event), the slot then holds the new connection
(new `sockfd`, peer address and port, timestamp `now`, size 0, direction
inbound), every other slot is unchanged and so is the table length. -/
theorem handle_tcp_connect_full_table_evicts_oldest
    (find_oldest : tcp_table → Option Nat)
    (MAX_NR_CLIENTS FD_SETSIZE : Nat) (rv : Int) (addr : Nat) (port now : Int)
    (allocate : Option client_t) (t : tcp_table)
    (holdest : ∀ t : tcp_table, t.sessions ≠ [] →
      ∃ pos client, find_oldest t = some pos ∧ pos < t.sessions.length ∧
        t.sessions[pos]? = some client ∧ ∀ c ∈ t.sessions, client.timestamp ≤ c.timestamp)
    (hmax : 0 < MAX_NR_CLIENTS)
    (hfull : MAX_NR_CLIENTS ≤ t.g_tcp_client_list_length)
    (hslots : t.g_tcp_client_list_length ≤ t.g_tcp_client_list.length)
    (hrv : rv ≠ -1) (hfd : rv < FD_SETSIZE) :
    ∃ pos old t2,
      find_oldest t = some pos ∧
      pos < t.g_tcp_client_list_length ∧
      t.g_tcp_client_list[pos]? = some old ∧
      (∀ c ∈ t.sessions, old.timestamp ≤ c.timestamp) ∧
      handle_tcp_connect find_oldest MAX_NR_CLIENTS FD_SETSIZE rv addr port now allocate t
        = .ok (t2, [Event.close old.sockfd]) ∧
      t2.g_tcp_client_list_length = t.g_tcp_client_list_length ∧
      t2.g_tcp_client_list.length = t.g_tcp_client_list.length ∧
      t2.g_tcp_client_list[pos]? =
        some { timestamp := now, sockfd := rv, addr := addr, port := port,
               packet := old.packet, size := 0, outgoing := 0 } ∧
      ∀ i, i ≠ pos → t2.g_tcp_client_list[i]? = t.g_tcp_client_list[i]? := by
  have hlen : t.sessions.length = t.g_tcp_client_list_length := by
    simp [tcp_table.sessions, List.length_take]; omega
  have hne : t.sessions ≠ [] := by
    intro h
    rw [h] at hlen
    simp at hlen
    omega
  obtain ⟨pos, old, hfind, hpos, hold, hmin⟩ := holdest t hne
  have hposlen : pos < t.g_tcp_client_list_length := by omega
  have hget : t.g_tcp_client_list[pos]? = some old := by
    have : t.sessions[pos]? = t.g_tcp_client_list[pos]? := by
      simp [tcp_table.sessions, List.getElem?_take, hposlen]
    rw [← this]; exact hold
  have hposl : pos < t.g_tcp_client_list.length := by omega
  refine ⟨pos, old,
    { t with g_tcp_client_list := t.g_tcp_client_list.set pos (fill_client old rv addr port now) },
    hfind, hposlen, hget, hmin, ?_, rfl, by simp, ?_, ?_⟩
  · have h2 : ¬ (rv ≥ (FD_SETSIZE : Int)) := by omega
    simp [handle_tcp_connect, hrv, h2, hfull, hfind, hget]
  · simp [hposl, fill_client]
  · intro i hi
    simp [List.getElem?_set_ne (Ne.symm hi)]

/-- C3 at a concrete input: the routine `find_oldest_client` as modelled
from the spec, a table of capacity two that holds the sessions with
timestamps 50 and 40, and an accepted descriptor 9. -/
theorem handle_tcp_connect_full_table_evicts_oldest_witness :
    ∃ pos old t2,
      find_oldest_client
          { g_tcp_client_list :=
              [{ timestamp := 50, sockfd := 5, addr := 1, port := 1001, packet := [48],
                 size := 1, outgoing := 0 },
               { timestamp := 40, sockfd := 6, addr := 2, port := 1002, packet := [49],
                 size := 1, outgoing := 0 }],
            g_tcp_client_list_length := 2 } = some pos ∧
      pos < 2 ∧
      ([{ timestamp := 50, sockfd := 5, addr := 1, port := 1001, packet := [48],
          size := 1, outgoing := 0 },
        { timestamp := 40, sockfd := 6, addr := 2, port := 1002, packet := [49],
          size := 1, outgoing := 0 }] : List client_t)[pos]? = some old ∧
      (∀ c ∈ tcp_table.sessions
          { g_tcp_client_list :=
              [{ timestamp := 50, sockfd := 5, addr := 1, port := 1001, packet := [48],
                 size := 1, outgoing := 0 },
               { timestamp := 40, sockfd := 6, addr := 2, port := 1002, packet := [49],
                 size := 1, outgoing := 0 }],
            g_tcp_client_list_length := 2 }, old.timestamp ≤ c.timestamp) ∧
      handle_tcp_connect find_oldest_client 2 1024 9 3 1003 60 none
          { g_tcp_client_list :=
              [{ timestamp := 50, sockfd := 5, addr := 1, port := 1001, packet := [48],
                 size := 1, outgoing := 0 },
               { timestamp := 40, sockfd := 6, addr := 2, port := 1002, packet := [49],
                 size := 1, outgoing := 0 }],
            g_tcp_client_list_length := 2 }
        = .ok (t2, [Event.close old.sockfd]) ∧
      t2.g_tcp_client_list_length = 2 ∧
      t2.g_tcp_client_list.length = 2 ∧
      t2.g_tcp_client_list[pos]? =
        some { timestamp := 60, sockfd := 9, addr := 3, port := 1003,
               packet := old.packet, size := 0, outgoing := 0 } ∧
      ∀ i, i ≠ pos → t2.g_tcp_client_list[i]? =
        ([{ timestamp := 50, sockfd := 5, addr := 1, port := 1001, packet := [48],
            size := 1, outgoing := 0 },
          { timestamp := 40, sockfd := 6, addr := 2, port := 1002, packet := [49],
            size := 1, outgoing := 0 }] : List client_t)[i]? :=
  handle_tcp_connect_full_table_evicts_oldest find_oldest_client 2 1024 9 3 1003 60 none
    { g_tcp_client_list :=
        [{ timestamp := 50, sockfd := 5, addr := 1, port := 1001, packet := [48],
           size := 1, outgoing := 0 },
         { timestamp := 40, sockfd := 6, addr := 2, port := 1002, packet := [49],
           size := 1, outgoing := 0 }],
      g_tcp_client_list_length := 2 }
    find_oldest_client_spec (by decide) (by decide) (by decide) (by decide) (by decide)

/-! ## Theorems: process uptime -/

/-- Once the static variable holds a non-zero origin, every later call
returns the reading minus that origin modulo `2^32` and keeps the origin. -/
theorem process_uptimes_of_origin (start : Nat) (hstart : start ≠ 0) (us : List Nat) :
    process_uptimes start us = (us.map (fun u => (u + 2 ^ 32 - start) % 2 ^ 32), start) := by
  induction us with
  | nil => rfl
  | cons u us ih =>
    simp only [process_uptimes, get_process_uptime, if_neg hstart, ih, List.map_cons]

/-- While the readings are zero the static variable stays unset and the
calls return zero. -/
theorem process_uptimes_zero_readings (n : Nat) (rest : List Nat) :
    process_uptimes 0 (List.replicate n 0 ++ rest) =
      (List.replicate n 0 ++ (process_uptimes 0 rest).1, (process_uptimes 0 rest).2) := by
  induction n with
  | zero => simp
  | succ n ih =>
    have hstep : get_process_uptime 0 0 = (0, 0) := by decide
    simp only [List.replicate_succ, List.cons_append, process_uptimes, hstep, List.append_eq, ih]

/-- C4, the claim fails at the readings 0, 5, 7: the first call returns 0
but leaves the origin unset, the second call captures 5 as the origin and
returns 0 where the claim says 5, and the third returns 2 where the claim
says 7. -/
theorem process_uptime_zero_reading_counterexample :
    (process_uptimes uptime_start_init [0, 5, 7]).1 = [0, 0, 2] ∧
    (process_uptimes uptime_start_init [0, 5, 7]).2 = 5 ∧
    (process_uptimes uptime_start_init [0, 5, 7]).1 ≠
      [0, (((5 : Int) - 0) % 2 ^ 32).toNat, (((7 : Int) - 0) % 2 ^ 32).toNat] := by
  decide

/-- C4 as amended: the origin is the first non-zero reading.  For readings
that start with `n` zeros followed by `u0 ≠ 0` and then `us`, the calls on
the zeros return 0, the call on `u0` captures it as the origin and returns
0, every later call returns its reading minus `u0` modulo `2^32`, and the
origin is still `u0` after the last call.  With `n = 0` this is the claim
for a first reading that is not zero. -/
theorem process_uptime_origin_is_first_nonzero_reading (n u0 : Nat) (us : List Nat)
    (h0 : u0 ≠ 0) (h32 : u0 < 2 ^ 32) :
    process_uptimes uptime_start_init (List.replicate n 0 ++ u0 :: us) =
      (List.replicate n 0 ++ 0 :: us.map (fun u => (((u : Int) - (u0 : Int)) % 2 ^ 32).toNat),
        u0) := by
  have hfirst : get_process_uptime 0 u0 = (0, u0) := by
    simp [get_process_uptime, h0]
  have hmap : us.map (fun u => (u + 2 ^ 32 - u0) % 2 ^ 32) =
      us.map (fun u => (((u : Int) - (u0 : Int)) % 2 ^ 32).toNat) := by
    apply List.map_congr_left
    intro u _
    norm_num at h32 ⊢
    omega
  rw [uptime_start_init, process_uptimes_zero_readings]
  simp only [process_uptimes, hfirst, process_uptimes_of_origin u0 h0, hmap]

/-- C4 as amended, at the readings 0, 0, 100, 250, 40. -/
theorem process_uptime_origin_is_first_nonzero_reading_witness :
    process_uptimes uptime_start_init (List.replicate 2 0 ++ 100 :: [250, 40]) =
      (List.replicate 2 0 ++
        0 :: [250, 40].map (fun u => (((u : Int) - ((100 : Nat) : Int)) % 2 ^ 32).toNat), 100) :=
  process_uptime_origin_is_first_nonzero_reading 2 100 [250, 40] (by decide) (by decide)

/-! ## Theorems: the floating-point embedding never divides by a rounded zero -/

/-- The digit count of zero is zero. -/
theorem bitlen_aux_zero (fuel : Nat) : bitlen_aux fuel 0 = 0 := by
  cases fuel <;> simp [bitlen_aux]

/-- With enough fuel the digit count `b` of `n` satisfies `n < 2^b`, and
`2^(b-1) ≤ n` when `n` is positive. -/
theorem bitlen_aux_bounds (fuel : Nat) :
    ∀ n, n ≤ fuel → n < 2 ^ bitlen_aux fuel n ∧ (0 < n → 2 ^ (bitlen_aux fuel n - 1) ≤ n) := by
  induction fuel with
  | zero =>
    intro n hn
    have : n = 0 := by omega
    subst this
    simp [bitlen_aux]
  | succ fuel ih =>
    intro n hn
    by_cases h0 : n = 0
    · subst h0
      simp [bitlen_aux]
    · have hhalf : n / 2 ≤ fuel := by omega
      obtain ⟨hup, hlow⟩ := ih (n / 2) hhalf
      simp only [bitlen_aux, if_neg h0, Nat.add_sub_cancel]
      constructor
      · rw [pow_succ]; omega
      · intro _
        by_cases h1 : n / 2 = 0
        · rw [h1, bitlen_aux_zero]; simp; omega
        · have hpos : 0 < n / 2 := Nat.pos_of_ne_zero h1
          have hl := hlow hpos
          have hb : 0 < bitlen_aux fuel (n / 2) := by
            by_contra hc
            have : bitlen_aux fuel (n / 2) = 0 := by omega
            rw [this] at hup
            simp at hup
            omega
          have : 2 ^ bitlen_aux fuel (n / 2) = 2 * 2 ^ (bitlen_aux fuel (n / 2) - 1) := by
            rw [← pow_succ']
            congr 1
            omega
          omega

/-- Every number is below `2` to its digit count. -/
theorem lt_two_pow_bitlen (n : Nat) : n < 2 ^ bitlen n :=
  (bitlen_aux_bounds n n (le_refl n)).1

/-- A positive number is at least `2` to its digit count less one. -/
theorem two_pow_bitlen_le (n : Nat) (h : 0 < n) : 2 ^ (bitlen n - 1) ≤ n :=
  (bitlen_aux_bounds n n (le_refl n)).2 h

/-- Rounding to the nearest integer never goes below the integer quotient. -/
theorem le_round_half_even (num den : Nat) : num / den ≤ round_half_even num den := by
  unfold round_half_even
  simp only
  split_ifs <;> omega

/-- The significand that `round_ratio` returns for a positive ratio is not
zero. -/
theorem round_ratio_pos (p n d : Nat) (e : Int) (hp : 0 < p) (hn : 0 < n) (hd : 0 < d) :
    0 < (round_ratio p n d e).1 := by
  unfold round_ratio
  simp only
  set s := p + 1 + bitlen d with hs
  set Q := n * 2 ^ s / d with hQ
  set k := bitlen Q - p with hk
  have hdlt : d < 2 ^ s := by
    have h1 := lt_two_pow_bitlen d
    have h2 : 2 ^ bitlen d ≤ 2 ^ s := Nat.pow_le_pow_right (by norm_num) (by omega)
    omega
  have hN : 2 ^ s ≤ n * 2 ^ s := Nat.le_mul_of_pos_left _ hn
  have hden : 0 < d * 2 ^ k := Nat.mul_pos hd (by positivity)
  have hle : d * 2 ^ k ≤ n * 2 ^ s := by
    by_cases hk0 : k = 0
    · rw [hk0]; simp; omega
    · have hbQ : bitlen Q = k + p := by omega
      have hQpos : 0 < Q := by
        by_contra hc
        have : Q = 0 := Nat.eq_zero_of_not_pos hc
        rw [this] at hbQ
        simp [bitlen, bitlen_aux] at hbQ
        omega
      have h1 := two_pow_bitlen_le Q hQpos
      have h2 : 2 ^ k ≤ 2 ^ (bitlen Q - 1) := Nat.pow_le_pow_right (by norm_num) (by omega)
      have h3 : d * Q ≤ n * 2 ^ s := Nat.mul_div_le _ _
      calc d * 2 ^ k ≤ d * Q := Nat.mul_le_mul_left _ (le_trans h2 h1)
        _ ≤ n * 2 ^ s := h3
  have hq : 1 ≤ n * 2 ^ s / (d * 2 ^ k) := (Nat.one_le_div_iff hden).mpr hle
  exact lt_of_lt_of_le hq (le_round_half_even _ _)

/-- The conversion of a non-zero integer to a floating-point number is not
zero. -/
theorem fp_of_int_ne_zero (p : Nat) (n : Int) (hp : 0 < p) (hn : n ≠ 0) :
    (fp_of_int p n).m ≠ 0 := by
  have hpos := round_ratio_pos p n.natAbs 1 0 hp (Int.natAbs_pos.mpr hn) (by norm_num)
  simp only [fp_of_int, fp_round, dyadic.ofInt, if_neg hn]
  split_ifs <;> omega

/-- The quotient of `used_percent` is finite when the total is not zero:
only a count of zero makes the divisor zero. -/
theorem used_percent_quotient_finite (used all : Nat) (h : all ≠ 0) :
    ∃ q,
      fp_div FLT
        (fp_sub FLT
          (fp_add FLT (fp_mul FLT (fp_of_int FLT used) (fp_of_int FLT 100))
            (fp_of_int FLT all))
          (fp_of_int FLT 1))
        (fp_of_int FLT all) = some q := by
  have hm : (fp_of_int FLT (all : Int)).m ≠ 0 :=
    fp_of_int_ne_zero FLT all (by decide) (by exact_mod_cast h)
  simp only [fp_div, if_neg hm]
  split_ifs <;> exact ⟨_, rfl⟩

/-! ## Theorems: the collectors on failure of their source -/

/-- Storing the values of disk `i` sets the values of disk `i`. -/
theorem diskinfo_store_values_self (d : diskinfo_t) (i : Nat) (v : disk_values) :
    (d.store i v).values i = v := by
  simp [diskinfo_t.store, diskinfo_t.values]

/-- Storing the values of disk `i` leaves every other disk alone. -/
theorem diskinfo_store_values_ne (d : diskinfo_t) (i j : Nat) (v : disk_values) (h : j ≠ i) :
    (d.store i v).values j = d.values j := by
  simp [diskinfo_t.store, diskinfo_t.values, Function.update_noteq h]

/-- The loop of `get_diskinfo` leaves the disks before `i` alone and stores,
for the `k`-th remaining disk, the values of its loop body at index
`i + k`. -/
theorem get_diskinfo_from_values (outs : List (Option statfs_t)) :
    ∀ (i : Nat) (d : diskinfo_t),
      (∀ j, j < i → (get_diskinfo_from i outs d).values j = d.values j) ∧
      (∀ k o, outs[k]? = some o → (get_diskinfo_from i outs d).values (i + k) = disk_entry o) := by
  induction outs with
  | nil =>
    intro i d
    exact ⟨fun _ _ => rfl, fun k o hk => by simp at hk⟩
  | cons o rest ih =>
    intro i d
    obtain ⟨h1, h2⟩ := ih (i + 1) (d.store i (disk_entry o))
    simp only [get_diskinfo_from]
    refine ⟨?_, ?_⟩
    · intro j hj
      rw [h1 j (by omega), diskinfo_store_values_ne d i j _ (by omega)]
    · intro k o2 hk
      cases k with
      | zero =>
        simp only [List.getElem?_cons_zero, Option.some.injEq] at hk
        subst hk
        rw [Nat.add_zero i, h1 i (by omega), diskinfo_store_values_self]
      | succ k =>
        simp only [List.getElem?_cons_succ] at hk
        rw [show i + (k + 1) = i + 1 + k by omega]
        exact h2 k o2 hk

/-- The status the interface loop stores for interface `i`. -/
theorem netinfo_entry_status_self (fd : Int) (q : ifreq_result) (i : Nat) (n : netinfo_t) :
    (netinfo_entry fd q i n).status i =
      if fd = -1 ∨ q.flags_rv = -1 then 4
      else if q.ifr_flags &&& IFF_UP ≠ 0 then (if q.ifr_flags &&& IFF_RUNNING ≠ 0 then 1 else 7)
      else 2 := by
  unfold netinfo_entry
  split_ifs <;> simp

/-- The interface loop body leaves the status of every other interface
alone. -/
theorem netinfo_entry_status_ne (fd : Int) (q : ifreq_result) (i j : Nat) (n : netinfo_t)
    (h : j ≠ i) : (netinfo_entry fd q i n).status j = n.status j := by
  unfold netinfo_entry
  split_ifs <;> simp [Function.update_noteq h]

/-- The interface loop leaves the status of the interfaces before `i` alone
and stores, for the `k`-th remaining interface, the status of its loop
body. -/
theorem netinfo_loop_status (fd : Int) (qs : List ifreq_result) :
    ∀ (i : Nat) (n : netinfo_t),
      (∀ j, j < i → (netinfo_loop fd i qs n).status j = n.status j) ∧
      (∀ k q, qs[k]? = some q →
        (netinfo_loop fd i qs n).status (i + k) =
          if fd = -1 ∨ q.flags_rv = -1 then 4
          else if q.ifr_flags &&& IFF_UP ≠ 0 then
            (if q.ifr_flags &&& IFF_RUNNING ≠ 0 then 1 else 7)
          else 2) := by
  induction qs with
  | nil =>
    intro i n
    exact ⟨fun _ _ => rfl, fun k q hk => by simp at hk⟩
  | cons q0 rest ih =>
    intro i n
    obtain ⟨h1, h2⟩ := ih (i + 1) (netinfo_entry fd q0 i n)
    simp only [netinfo_loop]
    refine ⟨?_, ?_⟩
    · intro j hj
      rw [h1 j (by omega), netinfo_entry_status_ne fd q0 i j n (by omega)]
    · intro k q hk
      cases k with
      | zero =>
        simp only [List.getElem?_cons_zero, Option.some.injEq] at hk
        subst hk
        rw [Nat.add_zero i, h1 i (by omega), netinfo_entry_status_self]
      | succ k =>
        simp only [List.getElem?_cons_succ] at hk
        rw [show i + (k + 1) = i + 1 + k by omega]
        exact h2 k q hk

/-- The loop of `get_wirelessinfo` leaves the interfaces before `i` alone
and stores, for the `k`-th remaining interface, the outputs of
`get_wireless_sn`. -/
theorem wirelessinfo_loop_values (qs : List wireless_query) :
    ∀ (i : Nat) (w : wirelessinfo_t),
      (∀ j, j < i → (wirelessinfo_loop i qs w).signal j = w.signal j ∧
        (wirelessinfo_loop i qs w).noise j = w.noise j) ∧
      (∀ k q, qs[k]? = some q →
        (wirelessinfo_loop i qs w).signal (i + k) = (get_wireless_sn q.fd q.stats q.range).signal ∧
        (wirelessinfo_loop i qs w).noise (i + k) = (get_wireless_sn q.fd q.stats q.range).noise) := by
  induction qs with
  | nil =>
    intro i w
    exact ⟨fun _ _ => ⟨rfl, rfl⟩, fun k q hk => by simp at hk⟩
  | cons q0 rest ih =>
    intro i w
    obtain ⟨h1, h2⟩ := ih (i + 1)
      { signal := Function.update w.signal i (get_wireless_sn q0.fd q0.stats q0.range).signal,
        noise := Function.update w.noise i (get_wireless_sn q0.fd q0.stats q0.range).noise }
    simp only [wirelessinfo_loop]
    refine ⟨?_, ?_⟩
    · intro j hj
      have hne : j ≠ i := by omega
      obtain ⟨a, b⟩ := h1 j (by omega)
      rw [a, b]
      simp [Function.update_noteq hne]
    · intro k q hk
      cases k with
      | zero =>
        simp only [List.getElem?_cons_zero, Option.some.injEq] at hk
        subst hk
        obtain ⟨a, b⟩ := h1 i (by omega)
        rw [Nat.add_zero i, a, b]
        simp
      | succ k =>
        simp only [List.getElem?_cons_succ] at hk
        rw [show i + (k + 1) = i + 1 + k by omega]
        exact h2 k q hk

/-- C5, the claim fails for two collectors.  When `read_file` fails,
`get_system_uptime` reports 4294967295, not 0.  When the socket of
`get_netinfo` cannot be opened and the parse of `/proc/net/dev` succeeds,
the status reported for the interface is 4, not 0. -/
theorem collector_failure_value_not_zero :
    get_system_uptime none (fun _ => { m := 0, e := 0 }) = 4294967295 ∧
    (get_netinfo (-1) [{ flags_rv := 0, ifr_flags := 0, hwaddr_rv := 0, sa_data := [] }] 0
        (fun _ =>
          { rx_bytes := 0, rx_packets := 0, rx_errors := 0, rx_drops := 0, tx_bytes := 0,
            tx_packets := 0, tx_errors := 0, tx_drops := 0 })
        netinfo_zero).status 0 = 4 := by
  constructor <;> decide

/-- C5 as amended.  On failure of their source `get_loadinfo`,
`get_meminfo`, `get_cpuinfo`, `get_diskinfo` (for the disk whose `statfs`
failed), `get_netinfo` (when `parse_file` failed) and `get_wirelessinfo`
(for the interface whose socket or `ioctl` failed) report zero for every
value of the record.  `get_system_uptime` reports 4294967295, the `-1` of
its error path as `unsigned int`.  `get_netinfo` reports status 4 for an
interface whose socket or flags query failed while the parse succeeded. -/
theorem collectors_on_source_failure :
    (∀ atof, get_system_uptime none atof = 4294967295) ∧
    (∀ strtod loadinfo i, (get_loadinfo none strtod loadinfo).avg i = 0) ∧
    (∀ rv parsed, rv ≠ 0 →
      get_meminfo rv parsed = { total := 0, free := 0, shared := 0, buffers := 0, cached := 0 }) ∧
    (∀ rv parsed, rv ≠ 0 →
      get_cpuinfo rv parsed =
        { user := 0, nice := 0, system := 0, idle := 0, irqs := 0, cntxts := 0 }) ∧
    (∀ statfs diskinfo i, statfs[i]? = some none →
      (get_diskinfo statfs diskinfo).values i =
        { total := 0, free := 0, used := 0, blocks_used_percent := 0,
          inodes_used_percent := 0 }) ∧
    (∀ fd queries parse_rv counters netinfo, parse_rv ≠ 0 →
      get_netinfo fd queries parse_rv counters netinfo = netinfo_zero) ∧
    (∀ fd queries counters netinfo i q, queries[i]? = some q → (fd = -1 ∨ q.flags_rv = -1) →
      (get_netinfo fd queries 0 counters netinfo).status i = 4) ∧
    (∀ queries wirelessinfo i q, queries[i]? = some q →
      (q.fd < 0 ∨ q.stats.rc < 0 ∨
        (q.stats.q.updated &&& IW_QUAL_RCPI = 0 ∧ q.stats.q.updated &&& IW_QUAL_DBM = 0 ∧
          q.range.rc < 0)) →
      (get_wirelessinfo queries wirelessinfo).signal i = 0 ∧
      (get_wirelessinfo queries wirelessinfo).noise i = 0) := by
  refine ⟨fun _ => rfl, fun _ _ _ => rfl, ?_, ?_, ?_, ?_, ?_, ?_⟩
  · intro rv parsed h
    simp [get_meminfo, h]
  · intro rv parsed h
    simp [get_cpuinfo, h]
  · intro statfs diskinfo i hi
    have := (get_diskinfo_from_values statfs 0 diskinfo).2 i none hi
    rw [Nat.zero_add] at this
    simpa [get_diskinfo, disk_entry] using this
  · intro fd queries parse_rv counters netinfo h
    simp [get_netinfo, h]
  · intro fd queries counters netinfo i q hq hfail
    have := (netinfo_loop_status fd queries 0 netinfo).2 i q hq
    simp only [Nat.zero_add, if_pos hfail] at this
    simpa [get_netinfo, store_counters] using this
  · intro queries wirelessinfo i q hq hfail
    obtain ⟨hs, hn⟩ := (wirelessinfo_loop_values queries 0 wirelessinfo).2 i q hq
    simp only [Nat.zero_add] at hs hn
    simp only [get_wirelessinfo, hs, hn]
    rcases hfail with h | h | ⟨h1, h2, h3⟩
    · simp [get_wireless_sn, h]
    · by_cases hfd : q.fd < 0
      · simp [get_wireless_sn, hfd]
      · simp [get_wireless_sn, hfd, h]
    · by_cases hfd : q.fd < 0
      · simp [get_wireless_sn, hfd]
      · by_cases hrc : q.stats.rc < 0
        · simp [get_wireless_sn, hfd, hrc]
        · simp [get_wireless_sn, hfd, hrc, h1, h2, h3]

/-- C5 as amended, at two disks: the first cannot be read, the second is a
file system that reports zero blocks (as `/proc` does); the values of the
first disk are zero. -/
theorem collectors_on_source_failure_witness :
    (get_diskinfo
        [none, some { f_bsize := 4096, f_blocks := 0, f_bfree := 0, f_files := 0,
                      f_ffree := 0 }]
        { total := fun _ => 7, free := fun _ => 7, used := fun _ => 7,
          blocks_used_percent := fun _ => 7, inodes_used_percent := fun _ => 7 }).values 0 =
      { total := 0, free := 0, used := 0, blocks_used_percent := 0,
        inodes_used_percent := 0 } :=
  collectors_on_source_failure.2.2.2.2.1
    [none, some { f_bsize := 4096, f_blocks := 0, f_bfree := 0, f_files := 0, f_ffree := 0 }]
    { total := fun _ => 7, free := fun _ => 7, used := fun _ => 7,
      blocks_used_percent := fun _ => 7, inodes_used_percent := fun _ => 7 }
    0 (by decide)

/-! ## Theorems: disk usage percent -/

/-- C6, evaluated on the code: for a file system of 1000000 blocks with no
free block and 1000000 inodes of which 500000 are free, `get_diskinfo`
stores a block-use percent of 101 and an inode-use percent of 51.  The
ceilings the claim states are 100 and 50 (computed here in integer
arithmetic): `100 * used + all - 1` needs more than the 24 bits of a
`float` significand, the `- 1` is rounded away, and the quotient is one too
large. -/
theorem disk_percent_above_ceiling :
    (get_diskinfo
        [some { f_bsize := 4096, f_blocks := 1000000, f_bfree := 0, f_files := 1000000,
                f_ffree := 500000 }]
        { total := fun _ => 0, free := fun _ => 0, used := fun _ => 0,
          blocks_used_percent := fun _ => 0, inodes_used_percent := fun _ => 0 }).values 0 =
      { total := 4000000, free := 0, used := 4000000, blocks_used_percent := 101,
        inodes_used_percent := 51 } ∧
    (100 * (1000000 - 0) + 1000000 - 1) / 1000000 = 100 ∧
    (100 * (1000000 - 500000) + 1000000 - 1) / 1000000 = 50 := by
  refine ⟨?_, ?_, ?_⟩ <;> decide

/-! ## Theorems: the readiness wait -/

/-- C7, the claim fails when `select` returns `-1` with `errno = EINTR`
while the quit flag is not set: the process exits with `EXIT_SYSCALL`, the
loop does not proceed. -/
theorem select_eintr_without_quit_exits :
    after_select { rv := -1, errno := EINTR } 0 = control.exit ExitCode.EXIT_SYSCALL ∧
    after_select { rv := -1, errno := EINTR } 0 ≠ control.next := by
  decide

/-- C7 as amended: the loop proceeds to the refresh exactly when `select`
did not return `-1`; when it returned `-1` the loop is left if the quit flag
is set and the process exits with `EXIT_SYSCALL` if it is not; the error
number (`EINTR` or any other) changes nothing. -/
theorem after_select_outcomes (sel : select_result) (g_quit : Int) :
    (after_select sel g_quit = control.next ↔ sel.rv ≠ -1) ∧
    (after_select sel g_quit = control.leave ↔ sel.rv = -1 ∧ g_quit ≠ 0) ∧
    (after_select sel g_quit = control.exit ExitCode.EXIT_SYSCALL ↔ sel.rv = -1 ∧ g_quit = 0) ∧
    (∀ errno, after_select { sel with errno := errno } g_quit = after_select sel g_quit) := by
  unfold after_select
  by_cases h1 : sel.rv = -1 <;> by_cases h2 : g_quit = 0 <;> simp [h1, h2]

/-! ## Theorems: reading from a TCP session -/

/-- The bytes up to the end of a write are the bytes before it followed by
the data. -/
theorem take_write_at {α : Type} (buf : List α) (off : Nat) (data : List α)
    (h : off ≤ buf.length) :
    (write_at buf off data).take (off + data.length) = buf.take off ++ data := by
  unfold write_at
  have hl : (buf.take off ++ data).length = off + data.length := by
    simp [List.length_take, Nat.min_eq_left h]
  rw [List.take_left' hl]

/-- A write reaches at least to its own end. -/
theorem le_length_write_at {α : Type} (buf : List α) (off : Nat) (data : List α)
    (h : off ≤ buf.length) :
    off + data.length ≤ (write_at buf off data).length := by
  unfold write_at
  simp [List.length_take, Nat.min_eq_left h]

/-- A write that fits the buffer keeps its length. -/
theorem length_write_at {α : Type} (buf : List α) (off : Nat) (data : List α)
    (h : off + data.length ≤ buf.length) :
    (write_at buf off data).length = buf.length := by
  unfold write_at
  simp [List.length_take]
  omega

/-- Two writes, the second where the first ended, are one write of the
concatenated data. -/
theorem write_at_write_at {α : Type} (buf : List α) (off : Nat) (d1 d2 : List α)
    (h : off ≤ buf.length) :
    write_at (write_at buf off d1) (off + d1.length) d2 = write_at buf off (d1 ++ d2) := by
  have hl : (buf.take off ++ d1).length = off + d1.length := by
    simp [List.length_take, Nat.min_eq_left h]
  have h1 : (write_at buf off d1).take (off + d1.length) = buf.take off ++ d1 :=
    take_write_at buf off d1 h
  have h2 : (write_at buf off d1).drop (off + d1.length + d2.length) =
      buf.drop (off + (d1 ++ d2).length) := by
    unfold write_at
    rw [show off + d1.length + d2.length = (buf.take off ++ d1).length + d2.length by omega,
      ← List.drop_drop, List.drop_left, List.drop_drop, List.length_append]
    congr 1
    omega
  unfold write_at at h1 h2 ⊢
  rw [h1, h2]
  simp [List.append_assoc]

/-- A read that delivered bytes stores them behind the buffered ones, stamps
the session and goes on to the framing test. -/
theorem handle_tcp_client_read_bytes (snmp_packet_complete : client_t → Int)
    (snmp : client_t → snmp_result) (data : List Nat) (now : Int) (client : client_t)
    (h : data ≠ []) :
    handle_tcp_client_read snmp_packet_complete snmp (read_result.bytes data) now client =
      dispatch_received snmp_packet_complete snmp
        { client with
          packet := write_at client.packet client.size data,
          timestamp := now,
          size := client.size + data.length } := by
  have hlen : data.length ≠ 0 := by
    intro h0
    exact h (List.length_eq_zero.mp h0)
  have h1 : ¬ ((data.length : Int) = -1) := by omega
  have h2 : ¬ ((data.length : Int) = 0) := by omega
  simp [handle_tcp_client_read, read_result.rv, read_result.data, h1, h2]

/-- From any state of a session, the remaining bytes of a message delivered
in non-empty chunks leave the session, and the events, as the same bytes
delivered by one read at the time of the last chunk, provided the framing
test reports every state before the last chunk as incomplete. -/
theorem tcp_reads_chunks_eq_single (snmp_packet_complete : client_t → Int)
    (snmp : client_t → snmp_result) (last : List Nat) (t_last : Int) (hlast : last ≠ []) :
    ∀ (front : List (List Nat × Int)) (c : client_t),
      (∀ r ∈ front, r.1 ≠ []) →
      c.size ≤ c.packet.length →
      (∀ (p : List Nat) (c2 : client_t), p ≠ [] →
        (∃ s, s ≠ [] ∧ p ++ s = (front.map Prod.fst).flatten ++ last) →
        c2.packet.take c2.size = c.packet.take c.size ++ p →
        snmp_packet_complete c2 = 0) →
      tcp_reads snmp_packet_complete snmp
          (front.map (fun r => (read_result.bytes r.1, r.2)) ++ [(read_result.bytes last, t_last)])
          c =
        handle_tcp_client_read snmp_packet_complete snmp
          (read_result.bytes ((front.map Prod.fst).flatten ++ last)) t_last c := by
  intro front
  induction front with
  | nil =>
    intro c _ _ _
    simp [tcp_reads]
  | cons r front ih =>
    intro c hne hsize hinc
    obtain ⟨d, t⟩ := r
    have hd : d ≠ [] := hne (d, t) (by simp)
    have hrest : (front.map Prod.fst).flatten ++ last ≠ [] := by simp [hlast]
    have hall : d ++ ((front.map Prod.fst).flatten ++ last) ≠ [] := by simp [hd]
    set c1 : client_t :=
      { c with packet := write_at c.packet c.size d, timestamp := t, size := c.size + d.length }
      with hc1
    have htake : c1.packet.take c1.size = c.packet.take c.size ++ d :=
      take_write_at c.packet c.size d hsize
    have hstep : handle_tcp_client_read snmp_packet_complete snmp (read_result.bytes d) t c
        = (c1, []) := by
      rw [handle_tcp_client_read_bytes _ _ _ _ _ hd]
      have h0 : snmp_packet_complete c1 = 0 :=
        hinc d c1 hd ⟨(front.map Prod.fst).flatten ++ last, hrest, by simp⟩ htake
      simp only [dispatch_received, ← hc1, h0]
      simp
    have hih := ih c1 (fun r hr => hne r (by simp [hr]))
      (le_length_write_at c.packet c.size d hsize)
      (by
        intro p c2 hp hs hc2
        obtain ⟨s, hs1, hs2⟩ := hs
        apply hinc (d ++ p) c2 (by simp [hd]) ⟨s, hs1, by simp [hs2, List.append_assoc]⟩
        rw [hc2, htake, List.append_assoc])
    simp only [List.map_cons, List.cons_append, tcp_reads, hstep, List.append_eq, hih,
      List.nil_append, List.flatten_cons, List.append_assoc, Prod.mk.eta]
    rw [handle_tcp_client_read_bytes _ _ _ _ _ hrest, handle_tcp_client_read_bytes _ _ _ _ _ hall]
    have hw := write_at_write_at c.packet c.size d ((front.map Prod.fst).flatten ++ last) hsize
    simp only [hc1, hw]
    congr 2
    simp only [List.length_append]
    omega

/-- C8: a message `msg` delivered to a session with an empty receive buffer
in non-empty chunks (`front`, then `last`, each with the time of its read),
where the framing test reports every non-empty proper prefix of `msg` as
incomplete and `msg` itself as complete, and the buffer is large enough.
(1) The session and the events end as after one read of all of `msg` at the
time of the last chunk.  (2) The dispatcher is called exactly once, on a
session whose buffer starts with `msg` and whose size is the length of
`msg`.  (3) The session ends with the packet and size the dispatcher
prepared on that buffer.  (4) When the dispatcher does not look at the
timestamp, one read of `msg` at any other time leaves the same session up
to its timestamp. -/
theorem tcp_chunked_message_dispatched_once
    (snmp_packet_complete : client_t → Int) (snmp : client_t → snmp_result)
    (client : client_t) (front : List (List Nat × Int)) (last : List Nat) (t_last : Int)
    (msg : List Nat)
    (hmsg : (front.map Prod.fst).flatten ++ last = msg)
    (hempty : client.size = 0)
    (hfront : ∀ r ∈ front, r.1 ≠ []) (hlast : last ≠ [])
    (hfit : msg.length ≤ client.packet.length)
    (hinc : ∀ (p : List Nat) (c : client_t), p ≠ [] → (∃ s, s ≠ [] ∧ p ++ s = msg) →
      c.packet.take c.size = p → snmp_packet_complete c = 0)
    (hcomp : ∀ c : client_t, c.size = msg.length → c.packet.take c.size = msg →
      snmp_packet_complete c ≠ 0 ∧ snmp_packet_complete c ≠ -1) :
    tcp_reads snmp_packet_complete snmp
        (front.map (fun r => (read_result.bytes r.1, r.2)) ++ [(read_result.bytes last, t_last)])
        client
      = handle_tcp_client_read snmp_packet_complete snmp (read_result.bytes msg) t_last client ∧
    ∃ buf : client_t,
      buf.packet.take buf.size = msg ∧ buf.size = msg.length ∧
      buf.packet.length = client.packet.length ∧
      snmp_calls
          (tcp_reads snmp_packet_complete snmp
            (front.map (fun r => (read_result.bytes r.1, r.2)) ++
              [(read_result.bytes last, t_last)])
            client).2 = [buf] ∧
      (tcp_reads snmp_packet_complete snmp
          (front.map (fun r => (read_result.bytes r.1, r.2)) ++
            [(read_result.bytes last, t_last)])
          client).1.packet = (snmp buf).packet ∧
      (tcp_reads snmp_packet_complete snmp
          (front.map (fun r => (read_result.bytes r.1, r.2)) ++
            [(read_result.bytes last, t_last)])
          client).1.size = (snmp buf).size ∧
      ((∀ (c : client_t) (t : Int), snmp { c with timestamp := t } = snmp c) →
        ∀ t2 : Int,
          (handle_tcp_client_read snmp_packet_complete snmp (read_result.bytes msg) t2 client).1
            = { (tcp_reads snmp_packet_complete snmp
                  (front.map (fun r => (read_result.bytes r.1, r.2)) ++
                    [(read_result.bytes last, t_last)])
                  client).1 with timestamp := t2 } ∧
          snmp_calls
            (handle_tcp_client_read snmp_packet_complete snmp (read_result.bytes msg) t2
              client).2 = [{ buf with timestamp := t2 }]) := by
  have hmsgne : msg ≠ [] := by
    rw [← hmsg]; simp [hlast]
  have hchunk := tcp_reads_chunks_eq_single snmp_packet_complete snmp last t_last hlast front
    client hfront (by omega)
    (by
      intro p c2 hp hs hc2
      rw [hmsg] at hs
      apply hinc p c2 hp hs
      rw [hc2, hempty]
      simp)
  rw [hmsg] at hchunk
  -- the state of the session when the dispatcher is called
  have hstate : ∀ t : Int,
      let c1 : client_t :=
        { client with packet := write_at client.packet client.size msg, timestamp := t,
                      size := client.size + msg.length }
      c1.packet.take c1.size = msg ∧ c1.size = msg.length ∧
        c1.packet.length = client.packet.length := by
    intro t
    refine ⟨?_, ?_, ?_⟩
    · have := take_write_at client.packet client.size msg (by omega)
      simpa [hempty] using this
    · simp [hempty]
    · exact length_write_at client.packet client.size msg (by omega)
  have hsingle : ∀ t : Int,
      let c1 : client_t :=
        { client with packet := write_at client.packet client.size msg, timestamp := t,
                      size := client.size + msg.length }
      let c2 : client_t := { c1 with outgoing := 0 }
      let res := handle_tcp_client_read snmp_packet_complete snmp (read_result.bytes msg) t client
      snmp_calls res.2 = [c2] ∧ res.1.packet = (snmp c2).packet ∧ res.1.size = (snmp c2).size ∧
        res.1.timestamp = t ∧ res.1.addr = client.addr ∧ res.1.port = client.port ∧
        res.1.sockfd = (if (snmp c2).rv = -1 ∨ (snmp c2).size = 0 then -1 else client.sockfd) ∧
        res.1.outgoing = (if (snmp c2).rv = -1 ∨ (snmp c2).size = 0 then 0 else 1) := by
    intro t
    obtain ⟨ha, hb, _⟩ := hstate t
    obtain ⟨hn0, hn1⟩ := hcomp _ hb ha
    simp only
    rw [handle_tcp_client_read_bytes _ _ _ _ _ hmsgne]
    simp only [dispatch_received, if_neg hn1, if_neg hn0]
    by_cases hr : (snmp
        { timestamp := t, sockfd := client.sockfd, addr := client.addr, port := client.port,
          packet := write_at client.packet client.size msg, size := client.size + msg.length,
          outgoing := 0 }).rv = -1
    · simp [hr, snmp_calls]
    · by_cases hz : (snmp
          { timestamp := t, sockfd := client.sockfd, addr := client.addr, port := client.port,
            packet := write_at client.packet client.size msg, size := client.size + msg.length,
            outgoing := 0 }).size = 0
      · simp [hr, hz, snmp_calls]
      · simp [hr, hz, snmp_calls]
  refine ⟨hchunk, ?_⟩
  obtain ⟨ha, hb, hc⟩ := hstate t_last
  obtain ⟨s1, s2, s3, s4, s5, s6, s7, s8⟩ := hsingle t_last
  refine ⟨{ timestamp := t_last, sockfd := client.sockfd, addr := client.addr, port := client.port,
            packet := write_at client.packet client.size msg, size := client.size + msg.length,
            outgoing := 0 }, ha, hb, hc, ?_, ?_, ?_, ?_⟩
  · rw [hchunk]; exact s1
  · rw [hchunk]; exact s2
  · rw [hchunk]; exact s3
  · intro hts t2
    obtain ⟨u1, u2, u3, u4, u5, u6, u7, u8⟩ := hsingle t2
    have hsn := hts
      { timestamp := t_last, sockfd := client.sockfd, addr := client.addr, port := client.port,
        packet := write_at client.packet client.size msg, size := client.size + msg.length,
        outgoing := 0 } t2
    simp only at hsn u1 u2 u3 u7 u8 s2 s3 s7 s8
    rw [hsn] at u2 u3 u7 u8
    refine ⟨?_, u1⟩
    rw [hchunk]
    generalize handle_tcp_client_read snmp_packet_complete snmp (read_result.bytes msg) t2
      client = r2 at *
    generalize handle_tcp_client_read snmp_packet_complete snmp (read_result.bytes msg) t_last
      client = r1 at *
    obtain ⟨⟨a1, a2, a3, a4, a5, a6, a7⟩, e2⟩ := r2
    obtain ⟨⟨b1, b2, b3, b4, b5, b6, b7⟩, e1⟩ := r1
    simp only at *
    simp only [client_t.mk.injEq]
    refine ⟨u4, ?_, ?_, ?_, ?_, ?_, ?_⟩
    · rw [u7, s7]
    · rw [u5, s5]
    · rw [u6, s6]
    · rw [u2, s2]
    · rw [u3, s3]
    · rw [u8, s8]

/-- C8 at a concrete input: the five-byte message 48, 3, 1, 2, 3 delivered
as the chunks 48 / 3, 1 / 2, 3 at the times 101, 102 and 103 to the example
session, with the example framing test and dispatcher. -/
theorem tcp_chunked_message_dispatched_once_witness :
    tcp_reads example_packet_complete example_snmp
        ([(([48] : List Nat), (101 : Int)), ([3, 1], 102)].map
            (fun r => (read_result.bytes r.1, r.2)) ++
          [(read_result.bytes [2, 3], 103)])
        example_client
      = handle_tcp_client_read example_packet_complete example_snmp
          (read_result.bytes [48, 3, 1, 2, 3]) 103 example_client ∧
    ∃ buf : client_t,
      buf.packet.take buf.size = [48, 3, 1, 2, 3] ∧ buf.size = [48, 3, 1, 2, 3].length ∧
      buf.packet.length = example_client.packet.length ∧
      snmp_calls
          (tcp_reads example_packet_complete example_snmp
            ([(([48] : List Nat), (101 : Int)), ([3, 1], 102)].map
                (fun r => (read_result.bytes r.1, r.2)) ++
              [(read_result.bytes [2, 3], 103)])
            example_client).2 = [buf] ∧
      (tcp_reads example_packet_complete example_snmp
          ([(([48] : List Nat), (101 : Int)), ([3, 1], 102)].map
              (fun r => (read_result.bytes r.1, r.2)) ++
            [(read_result.bytes [2, 3], 103)])
          example_client).1.packet = (example_snmp buf).packet ∧
      (tcp_reads example_packet_complete example_snmp
          ([(([48] : List Nat), (101 : Int)), ([3, 1], 102)].map
              (fun r => (read_result.bytes r.1, r.2)) ++
            [(read_result.bytes [2, 3], 103)])
          example_client).1.size = (example_snmp buf).size ∧
      ((∀ (c : client_t) (t : Int), example_snmp { c with timestamp := t } = example_snmp c) →
        ∀ t2 : Int,
          (handle_tcp_client_read example_packet_complete example_snmp
              (read_result.bytes [48, 3, 1, 2, 3]) t2 example_client).1
            = { (tcp_reads example_packet_complete example_snmp
                  ([(([48] : List Nat), (101 : Int)), ([3, 1], 102)].map
                      (fun r => (read_result.bytes r.1, r.2)) ++
                    [(read_result.bytes [2, 3], 103)])
                  example_client).1 with timestamp := t2 } ∧
          snmp_calls
            (handle_tcp_client_read example_packet_complete example_snmp
              (read_result.bytes [48, 3, 1, 2, 3]) t2 example_client).2
            = [{ buf with timestamp := t2 }]) :=
  tcp_chunked_message_dispatched_once example_packet_complete example_snmp example_client
    [([48], 101), ([3, 1], 102)] [2, 3] 103 [48, 3, 1, 2, 3]
    (by decide) (by decide) (by decide) (by decide) (by decide)
    (by
      intro p c hp hs hc
      obtain ⟨s, hs1, hs2⟩ := hs
      have hlen : p.length + s.length = 5 := by
        have := congrArg List.length hs2
        simpa using this
      have hspos : 0 < s.length := List.length_pos.mpr hs1
      simp only [example_packet_complete, hc]
      rw [if_pos (by omega)])
    (by
      intro c _ hc
      simp [example_packet_complete, hc])

/-- C9: one call of `handle_tcp_client_read` on an open, inbound session.
Write `c1` for the session after the read bookkeeping (bytes stored, size
increased) and `r` for what the dispatcher leaves when called on it.
(a) The session is closed (`sockfd = -1`) exactly when `read` returned `-1`
or `0`, or the framing test returned `-1`, or the packet was complete and
the dispatcher returned `-1` or left size 0.  (b) It stays open and inbound
with the size increased by the number of bytes read exactly when the bytes
were read and the frame is incomplete.  (c) It becomes outbound exactly when
the frame was complete and the dispatcher succeeded with a non-empty
response.  Exactly one of the three holds, and an outbound session has a
non-empty pending buffer. -/
theorem handle_tcp_client_read_outcomes
    (snmp_packet_complete : client_t → Int) (snmp : client_t → snmp_result)
    (rd : read_result) (now : Int) (client : client_t)
    (hopen : client.sockfd ≠ -1) (hin : client.outgoing = 0) :
    let c1 : client_t :=
      { client with packet := write_at client.packet client.size rd.data, timestamp := now,
                    size := client.size + rd.data.length }
    let r := snmp { c1 with outgoing := 0 }
    let res := (handle_tcp_client_read snmp_packet_complete snmp rd now client).1
    (res.sockfd = -1 ↔
      rd.rv = -1 ∨ rd.rv = 0 ∨
        (rd.rv ≠ -1 ∧ rd.rv ≠ 0 ∧
          (snmp_packet_complete c1 = -1 ∨
            (snmp_packet_complete c1 ≠ 0 ∧ (r.rv = -1 ∨ r.size = 0))))) ∧
    ((res.sockfd ≠ -1 ∧ res.outgoing = 0 ∧ res.size = client.size + rd.data.length) ↔
      (rd.rv ≠ -1 ∧ rd.rv ≠ 0 ∧ snmp_packet_complete c1 = 0)) ∧
    (res.outgoing = 1 ↔
      (rd.rv ≠ -1 ∧ rd.rv ≠ 0 ∧ snmp_packet_complete c1 ≠ -1 ∧ snmp_packet_complete c1 ≠ 0 ∧
        r.rv ≠ -1 ∧ r.size ≠ 0)) ∧
    ((res.sockfd = -1 ∧ res.outgoing = 0) ∨
      (res.sockfd ≠ -1 ∧ res.outgoing = 0) ∨
      (res.sockfd ≠ -1 ∧ res.outgoing = 1)) ∧
    (res.outgoing = 1 → res.size ≠ 0 ∧ res.packet = r.packet ∧ res.size = r.size) := by
  intro c1 r res
  cases rd with
  | failed =>
    simp [res, handle_tcp_client_read, read_result.rv, hin]
  | bytes data =>
    by_cases hd : data = []
    · subst hd
      simp [res, handle_tcp_client_read, read_result.rv, read_result.data, hin]
    · have hlen : data.length ≠ 0 := fun h0 => hd (List.length_eq_zero.mp h0)
      have h1 : ¬ ((data.length : Int) = -1) := by omega
      have h2 : ¬ ((data.length : Int) = 0) := by omega
      have hres : res = (dispatch_received snmp_packet_complete snmp c1).1 := by
        simp only [res, c1, read_result.data]
        rw [handle_tcp_client_read_bytes _ _ _ _ _ hd]
      rw [hres]
      simp only [read_result.rv, h1, h2, not_false_eq_true, true_and, false_or, ne_eq]
      have e1 : c1.sockfd = client.sockfd := rfl
      have e2 : c1.outgoing = client.outgoing := rfl
      have e3 : c1.size = client.size + data.length := rfl
      by_cases ha : snmp_packet_complete c1 = -1
      · simp [dispatch_received, ha, e1, e2, e3, hin]
      · by_cases hb : snmp_packet_complete c1 = 0
        · simp [dispatch_received, hb, e1, e2, e3, hin, hopen, read_result.data]
        · by_cases hc : r.rv = -1
          · have hc2 : (snmp { c1 with outgoing := 0 }).rv = -1 := hc
            simp [dispatch_received, ha, hb, hc2, r]
          · have hc2 : ¬ (snmp { c1 with outgoing := 0 }).rv = -1 := hc
            by_cases hz : r.size = 0
            · have hz2 : (snmp { c1 with outgoing := 0 }).size = 0 := hz
              simp [dispatch_received, ha, hb, hc2, hz2, r]
            · have hz2 : ¬ (snmp { c1 with outgoing := 0 }).size = 0 := hz
              simp [dispatch_received, ha, hb, hc2, hz2, r, e1, hopen]

/-- C9 at a concrete input: the example session reads the five bytes 48, 3,
1, 2, 3 at time 103; the frame is complete and the example dispatcher
answers with two bytes, so the session becomes outbound. -/
theorem handle_tcp_client_read_outcomes_witness :
    ((handle_tcp_client_read example_packet_complete example_snmp
          (read_result.bytes [48, 3, 1, 2, 3]) 103 example_client).1.sockfd = -1 ↔
      (read_result.bytes [48, 3, 1, 2, 3]).rv = -1 ∨ (read_result.bytes [48, 3, 1, 2, 3]).rv = 0 ∨
        ((read_result.bytes [48, 3, 1, 2, 3]).rv ≠ -1 ∧ (read_result.bytes [48, 3, 1, 2, 3]).rv ≠ 0 ∧
          (example_packet_complete
              { timestamp := 103, sockfd := 5, addr := 1, port := 1001,
                packet := [48, 3, 1, 2, 3, 0, 0, 0], size := 5, outgoing := 0 } = -1 ∨
            (example_packet_complete
                { timestamp := 103, sockfd := 5, addr := 1, port := 1001,
                  packet := [48, 3, 1, 2, 3, 0, 0, 0], size := 5, outgoing := 0 } ≠ 0 ∧
              ((example_snmp
                  { timestamp := 103, sockfd := 5, addr := 1, port := 1001,
                    packet := [48, 3, 1, 2, 3, 0, 0, 0], size := 5, outgoing := 0 }).rv = -1 ∨
                (example_snmp
                  { timestamp := 103, sockfd := 5, addr := 1, port := 1001,
                    packet := [48, 3, 1, 2, 3, 0, 0, 0], size := 5, outgoing := 0 }).size = 0))))) ∧
    (((handle_tcp_client_read example_packet_complete example_snmp
          (read_result.bytes [48, 3, 1, 2, 3]) 103 example_client).1.sockfd = -1 ∧
        (handle_tcp_client_read example_packet_complete example_snmp
          (read_result.bytes [48, 3, 1, 2, 3]) 103 example_client).1.outgoing = 0) ∨
      ((handle_tcp_client_read example_packet_complete example_snmp
          (read_result.bytes [48, 3, 1, 2, 3]) 103 example_client).1.sockfd ≠ -1 ∧
        (handle_tcp_client_read example_packet_complete example_snmp
          (read_result.bytes [48, 3, 1, 2, 3]) 103 example_client).1.outgoing = 0) ∨
      ((handle_tcp_client_read example_packet_complete example_snmp
          (read_result.bytes [48, 3, 1, 2, 3]) 103 example_client).1.sockfd ≠ -1 ∧
        (handle_tcp_client_read example_packet_complete example_snmp
          (read_result.bytes [48, 3, 1, 2, 3]) 103 example_client).1.outgoing = 1)) :=
  ⟨(handle_tcp_client_read_outcomes example_packet_complete example_snmp
      (read_result.bytes [48, 3, 1, 2, 3]) 103 example_client (by decide) (by decide)).1,
   (handle_tcp_client_read_outcomes example_packet_complete example_snmp
      (read_result.bytes [48, 3, 1, 2, 3]) 103 example_client (by decide) (by decide)).2.2.2.1⟩

/-! ## Theorems: the UDP handler -/

/-- C10: for a received datagram `d`, write `c1` for the UDP client record
as filled before the dispatch (datagram stored at the start of the packet
buffer, size its length, the peer's address and port) and `r` for what the
dispatcher leaves.  The events of `handle_udp_client` hold exactly one
`sendto` when `r.rv ≠ -1` and `r.size ≠ 0`, and none otherwise; the
datagram sent is the first `r.size` bytes of the packet buffer the
dispatcher left, sent on the UDP socket to the address and port the request
came from.  The dispatcher is called once.  When `recvfrom` fails nothing is
dispatched or sent. -/
theorem handle_udp_client_sends_iff (g_udp_sockfd : Int) (snmp : client_t → snmp_result)
    (d : datagram) (now : Int) (g_udp_client : client_t) :
    sendto_calls (handle_udp_client g_udp_sockfd snmp (some d) now g_udp_client).2 =
      (if (snmp
            { timestamp := now, sockfd := g_udp_sockfd, addr := d.addr, port := d.port,
              packet := write_at g_udp_client.packet 0 d.bytes, size := d.bytes.length,
              outgoing := 0 }).rv ≠ -1 ∧
          (snmp
            { timestamp := now, sockfd := g_udp_sockfd, addr := d.addr, port := d.port,
              packet := write_at g_udp_client.packet 0 d.bytes, size := d.bytes.length,
              outgoing := 0 }).size ≠ 0 then
        [(g_udp_sockfd,
          (snmp
            { timestamp := now, sockfd := g_udp_sockfd, addr := d.addr, port := d.port,
              packet := write_at g_udp_client.packet 0 d.bytes, size := d.bytes.length,
              outgoing := 0 }).packet.take
            (snmp
              { timestamp := now, sockfd := g_udp_sockfd, addr := d.addr, port := d.port,
                packet := write_at g_udp_client.packet 0 d.bytes, size := d.bytes.length,
                outgoing := 0 }).size,
          d.addr, d.port)]
      else []) ∧
    snmp_calls (handle_udp_client g_udp_sockfd snmp (some d) now g_udp_client).2 =
      [{ timestamp := now, sockfd := g_udp_sockfd, addr := d.addr, port := d.port,
         packet := write_at g_udp_client.packet 0 d.bytes, size := d.bytes.length,
         outgoing := 0 }] ∧
    (handle_udp_client g_udp_sockfd snmp (some d) now g_udp_client).1.packet =
      (snmp
        { timestamp := now, sockfd := g_udp_sockfd, addr := d.addr, port := d.port,
          packet := write_at g_udp_client.packet 0 d.bytes, size := d.bytes.length,
          outgoing := 0 }).packet ∧
    (handle_udp_client g_udp_sockfd snmp (some d) now g_udp_client).1.size =
      (snmp
        { timestamp := now, sockfd := g_udp_sockfd, addr := d.addr, port := d.port,
          packet := write_at g_udp_client.packet 0 d.bytes, size := d.bytes.length,
          outgoing := 0 }).size ∧
    handle_udp_client g_udp_sockfd snmp none now g_udp_client = (g_udp_client, []) := by
  by_cases h1 : (snmp
      { timestamp := now, sockfd := g_udp_sockfd, addr := d.addr, port := d.port,
        packet := write_at g_udp_client.packet 0 d.bytes, size := d.bytes.length,
        outgoing := 0 }).rv = -1
  · simp [handle_udp_client, h1, sendto_calls, snmp_calls]
  · by_cases h2 : (snmp
        { timestamp := now, sockfd := g_udp_sockfd, addr := d.addr, port := d.port,
          packet := write_at g_udp_client.packet 0 d.bytes, size := d.bytes.length,
          outgoing := 0 }).size = 0
    · simp [handle_udp_client, h1, h2, sendto_calls, snmp_calls]
    · simp [handle_udp_client, h1, h2, sendto_calls, snmp_calls]

/-! ## Theorems: the refresh timer -/

/-- The sleep time the refresh stage computes for `ticks` remaining ticks,
`ticks ≥ 0`: whole seconds and microseconds that add up to the ticks, with
the microseconds inside one second. -/
theorem sleep_of_ticks (x : Int) (h : 0 ≤ x) :
    Int.tdiv x 100 * 100 + (Int.tmod x 100 * 10000) / 10000 = x ∧
    0 ≤ Int.tmod x 100 * 10000 ∧ Int.tmod x 100 * 10000 < 1000000 ∧ 0 ≤ Int.tdiv x 100 := by
  rw [Int.tdiv_eq_ediv h (by norm_num), Int.tmod_eq_emod h (by norm_num)]
  omega

/-- C11: for `g_timeout ≥ 0` and every tick count `ticks` of `ticks_since`.
If `ticks < 0` or `ticks ≥ g_timeout` the stage calls `mib_update(1)`; when
that call does not fail the interval origin becomes `tv_now` and the next
sleep is the whole interval.  Otherwise (`0 ≤ ticks < g_timeout`) it calls
`mib_update(0)`; when that call does not fail the origin is unchanged and
the next sleep is the remaining portion,
`tv_sec * 100 + tv_usec / 10000 = g_timeout - ticks`.  In both cases
`0 ≤ tv_usec < 1000000` and `tv_sec ≥ 0`.  A `mib_update` call that returns
`-1` ends the process with `EXIT_SYSCALL`. -/
theorem refresh_stage_timer (g_timeout ticks : Int) (tv_now : timeval)
    (mib_update : Int → Int) (tm : timer) (h0 : 0 ≤ g_timeout) :
    ((ticks < 0 ∨ g_timeout ≤ ticks) →
      (mib_update 1 ≠ -1 →
        ∃ tm2, refresh_stage g_timeout ticks tv_now mib_update tm = .ok (tm2, 1) ∧
          tm2.tv_last = tv_now ∧
          tm2.tv_sleep.tv_sec * 100 + tm2.tv_sleep.tv_usec / 10000 = g_timeout ∧
          0 ≤ tm2.tv_sleep.tv_usec ∧ tm2.tv_sleep.tv_usec < 1000000 ∧
          0 ≤ tm2.tv_sleep.tv_sec) ∧
      (mib_update 1 = -1 →
        refresh_stage g_timeout ticks tv_now mib_update tm
          = .error (Abort.exit ExitCode.EXIT_SYSCALL))) ∧
    ((0 ≤ ticks ∧ ticks < g_timeout) →
      (mib_update 0 ≠ -1 →
        ∃ tm2, refresh_stage g_timeout ticks tv_now mib_update tm = .ok (tm2, 0) ∧
          tm2.tv_last = tm.tv_last ∧
          tm2.tv_sleep.tv_sec * 100 + tm2.tv_sleep.tv_usec / 10000 = g_timeout - ticks ∧
          0 ≤ tm2.tv_sleep.tv_usec ∧ tm2.tv_sleep.tv_usec < 1000000 ∧
          0 ≤ tm2.tv_sleep.tv_sec) ∧
      (mib_update 0 = -1 →
        refresh_stage g_timeout ticks tv_now mib_update tm
          = .error (Abort.exit ExitCode.EXIT_SYSCALL))) := by
  refine ⟨fun hfull => ⟨fun hok => ?_, fun hfail => ?_⟩,
    fun hpart => ⟨fun hok => ?_, fun hfail => ?_⟩⟩
  · have hc : ticks < 0 ∨ ticks ≥ g_timeout := hfull
    obtain ⟨a, b, c, d⟩ := sleep_of_ticks g_timeout h0
    exact ⟨{ tv_last := tv_now,
             tv_sleep :=
               { tv_sec := Int.tdiv g_timeout 100,
                 tv_usec := Int.tmod g_timeout 100 * 10000 } },
      by simp only [refresh_stage, if_pos hc, if_neg hok], rfl, a, b, c, d⟩
  · have hc : ticks < 0 ∨ ticks ≥ g_timeout := hfull
    simp only [refresh_stage, if_pos hc, if_pos hfail]
  · have hc : ¬ (ticks < 0 ∨ ticks ≥ g_timeout) := by omega
    obtain ⟨a, b, c, d⟩ := sleep_of_ticks (g_timeout - ticks) (by omega)
    exact ⟨{ tm with
             tv_sleep :=
               { tv_sec := Int.tdiv (g_timeout - ticks) 100,
                 tv_usec := Int.tmod (g_timeout - ticks) 100 * 10000 } },
      by simp only [refresh_stage, if_neg hc, if_neg hok], rfl, a, b, c, d⟩
  · have hc : ¬ (ticks < 0 ∨ ticks ≥ g_timeout) := by omega
    simp only [refresh_stage, if_neg hc, if_pos hfail]

/-- C11 at a concrete input: an interval of 250 ticks of which 70 have
elapsed, and a `mib_update` that succeeds; the next sleep holds the 180
ticks that remain. -/
theorem refresh_stage_timer_witness :
    ∃ tm2,
      refresh_stage 250 70 { tv_sec := 1005, tv_usec := 0 } (fun _ => 0)
          { tv_last := { tv_sec := 1004, tv_usec := 300000 },
            tv_sleep := { tv_sec := 2, tv_usec := 500000 } } = .ok (tm2, 0) ∧
        tm2.tv_last = { tv_sec := 1004, tv_usec := 300000 } ∧
        tm2.tv_sleep.tv_sec * 100 + tm2.tv_sleep.tv_usec / 10000 = 250 - 70 ∧
        0 ≤ tm2.tv_sleep.tv_usec ∧ tm2.tv_sleep.tv_usec < 1000000 ∧
        0 ≤ tm2.tv_sleep.tv_sec :=
  ((refresh_stage_timer 250 70 { tv_sec := 1005, tv_usec := 0 } (fun _ => 0)
      { tv_last := { tv_sec := 1004, tv_usec := 300000 },
        tv_sleep := { tv_sec := 2, tv_usec := 500000 } } (by decide)).2
    ⟨by decide, by decide⟩).1 (by decide)

/-! ## Theorems: interface status -/

/-- C12: for every configured interface `i` (with `q` the outcome of its
`ioctl` calls) and a parse of `/proc/net/dev` that succeeded
(`parse_rv = 0`), the status `get_netinfo` reports is one of 1 to 7: it is
4 when the socket or the `SIOCGIFFLAGS` query failed, 1 when `IFF_UP` and
`IFF_RUNNING` are both set, 7 when `IFF_UP` is set without `IFF_RUNNING`,
and 2 when `IFF_UP` is not set. -/
theorem get_netinfo_status (fd : Int) (queries : List ifreq_result) (parse_rv : Int)
    (counters : Nat → if_counters) (netinfo : netinfo_t) (i : Nat) (q : ifreq_result)
    (hq : queries[i]? = some q) (hparse : parse_rv = 0) :
    (get_netinfo fd queries parse_rv counters netinfo).status i ∈ [1, 2, 3, 4, 5, 6, 7] ∧
    ((fd = -1 ∨ q.flags_rv = -1) →
      (get_netinfo fd queries parse_rv counters netinfo).status i = 4) ∧
    (fd ≠ -1 → q.flags_rv ≠ -1 → q.ifr_flags &&& IFF_UP ≠ 0 →
      q.ifr_flags &&& IFF_RUNNING ≠ 0 →
      (get_netinfo fd queries parse_rv counters netinfo).status i = 1) ∧
    (fd ≠ -1 → q.flags_rv ≠ -1 → q.ifr_flags &&& IFF_UP ≠ 0 →
      q.ifr_flags &&& IFF_RUNNING = 0 →
      (get_netinfo fd queries parse_rv counters netinfo).status i = 7) ∧
    (fd ≠ -1 → q.flags_rv ≠ -1 → q.ifr_flags &&& IFF_UP = 0 →
      (get_netinfo fd queries parse_rv counters netinfo).status i = 2) := by
  have hloop := (netinfo_loop_status fd queries 0 netinfo).2 i q hq
  rw [Nat.zero_add] at hloop
  have hs : (get_netinfo fd queries parse_rv counters netinfo).status i =
      if fd = -1 ∨ q.flags_rv = -1 then 4
      else if q.ifr_flags &&& IFF_UP ≠ 0 then
        (if q.ifr_flags &&& IFF_RUNNING ≠ 0 then 1 else 7)
      else 2 := by
    rw [← hloop]
    simp [get_netinfo, store_counters, hparse]
  rw [hs]
  refine ⟨?_, ?_, ?_, ?_, ?_⟩
  · split_ifs <;> simp
  · intro h
    rw [if_pos h]
  · intro h1 h2 h3 h4
    rw [if_neg (by simp [h1, h2]), if_pos h3, if_pos h4]
  · intro h1 h2 h3 h4
    rw [if_neg (by simp [h1, h2]), if_pos h3, if_neg (by simp [h4])]
  · intro h1 h2 h3
    rw [if_neg (by simp [h1, h2]), if_neg (by simp [h3])]

/-- C12 at a concrete input: two interfaces on an open socket, the first up
and running (flags `0x1043`), the second up without carrier (flags
`0x1003`); the statuses reported are 1 and 7. -/
theorem get_netinfo_status_witness :
    ((get_netinfo 3
        [{ flags_rv := 0, ifr_flags := 0x1043, hwaddr_rv := 0, sa_data := [2, 0, 0, 0, 0, 1] },
         { flags_rv := 0, ifr_flags := 0x1003, hwaddr_rv := 0, sa_data := [2, 0, 0, 0, 0, 2] }]
        0
        (fun _ =>
          { rx_bytes := 10, rx_packets := 1, rx_errors := 0, rx_drops := 0, tx_bytes := 20,
            tx_packets := 2, tx_errors := 0, tx_drops := 0 })
        netinfo_zero).status 1 ∈ [1, 2, 3, 4, 5, 6, 7]) ∧
    (get_netinfo 3
        [{ flags_rv := 0, ifr_flags := 0x1043, hwaddr_rv := 0, sa_data := [2, 0, 0, 0, 0, 1] },
         { flags_rv := 0, ifr_flags := 0x1003, hwaddr_rv := 0, sa_data := [2, 0, 0, 0, 0, 2] }]
        0
        (fun _ =>
          { rx_bytes := 10, rx_packets := 1, rx_errors := 0, rx_drops := 0, tx_bytes := 20,
            tx_packets := 2, tx_errors := 0, tx_drops := 0 })
        netinfo_zero).status 1 = 7 :=
  ⟨(get_netinfo_status 3
      [{ flags_rv := 0, ifr_flags := 0x1043, hwaddr_rv := 0, sa_data := [2, 0, 0, 0, 0, 1] },
       { flags_rv := 0, ifr_flags := 0x1003, hwaddr_rv := 0, sa_data := [2, 0, 0, 0, 0, 2] }]
      0
      (fun _ =>
        { rx_bytes := 10, rx_packets := 1, rx_errors := 0, rx_drops := 0, tx_bytes := 20,
          tx_packets := 2, tx_errors := 0, tx_drops := 0 })
      netinfo_zero 1
      { flags_rv := 0, ifr_flags := 0x1003, hwaddr_rv := 0, sa_data := [2, 0, 0, 0, 0, 2] }
      (by decide) (by decide)).1,
   (get_netinfo_status 3
      [{ flags_rv := 0, ifr_flags := 0x1043, hwaddr_rv := 0, sa_data := [2, 0, 0, 0, 0, 1] },
       { flags_rv := 0, ifr_flags := 0x1003, hwaddr_rv := 0, sa_data := [2, 0, 0, 0, 0, 2] }]
      0
      (fun _ =>
        { rx_bytes := 10, rx_packets := 1, rx_errors := 0, rx_drops := 0, tx_bytes := 20,
          tx_packets := 2, tx_errors := 0, tx_drops := 0 })
      netinfo_zero 1
      { flags_rv := 0, ifr_flags := 0x1003, hwaddr_rv := 0, sa_data := [2, 0, 0, 0, 0, 2] }
      (by decide) (by decide)).2.2.2.1 (by decide) (by decide) (by decide) (by decide)⟩

/-! ## Theorems: wireless signal and noise -/

/-- C13: `get_wireless_sn` on a statistics reading whose level and noise are
unsigned 8-bit values; `r` below is its result.  With the socket open and
`SIOCGIWSTATS` successful: (1) when the RCPI flag is set (whatever the dBm
flag), signal is `level / 2 - 110`; (2) otherwise, when the dBm flag is set,
signal is `level - 256`, which lies in `[-256, -1]`; (3) otherwise, when
`SIOCGIWRANGE` succeeds and `max_qual.level` is not zero, signal is
`100 * level / max_qual.level`.  In each case a signal whose INVALID flag is
set, or whose relative maximum is zero, is 0, the same holds for noise with
its own flag and maximum, and the return value is 0.  (4) When the socket,
`SIOCGIWSTATS` or (on the relative path) `SIOCGIWRANGE` fails, signal and
noise are 0 and the return value is `-1`.  (5) `get_wirelessinfo` stores
these two values for the interface. -/
theorem get_wireless_sn_normalises (fd : Int) (stats range : iw_result)
    (hlevel : stats.q.level < 256) (hnoise : stats.q.noise < 256) :
    (0 ≤ fd → 0 ≤ stats.rc → stats.q.updated &&& IW_QUAL_RCPI ≠ 0 →
      (get_wireless_sn fd stats range).rv = 0 ∧
      (get_wireless_sn fd stats range).signal =
        (if stats.q.updated &&& IW_QUAL_LEVEL_INVALID ≠ 0 then 0
         else (stats.q.level : Int) / 2 - 110) ∧
      (get_wireless_sn fd stats range).noise =
        (if stats.q.updated &&& IW_QUAL_NOISE_INVALID ≠ 0 then 0
         else (stats.q.noise : Int) / 2 - 110)) ∧
    (0 ≤ fd → 0 ≤ stats.rc → stats.q.updated &&& IW_QUAL_RCPI = 0 →
      stats.q.updated &&& IW_QUAL_DBM ≠ 0 →
      (get_wireless_sn fd stats range).rv = 0 ∧
      (get_wireless_sn fd stats range).signal =
        (if stats.q.updated &&& IW_QUAL_LEVEL_INVALID ≠ 0 then 0
         else (stats.q.level : Int) - 256) ∧
      (get_wireless_sn fd stats range).noise =
        (if stats.q.updated &&& IW_QUAL_NOISE_INVALID ≠ 0 then 0
         else (stats.q.noise : Int) - 256) ∧
      -256 ≤ (stats.q.level : Int) - 256 ∧ (stats.q.level : Int) - 256 ≤ -1 ∧
      -256 ≤ (stats.q.noise : Int) - 256 ∧ (stats.q.noise : Int) - 256 ≤ -1) ∧
    (0 ≤ fd → 0 ≤ stats.rc → stats.q.updated &&& IW_QUAL_RCPI = 0 →
      stats.q.updated &&& IW_QUAL_DBM = 0 → 0 ≤ range.rc →
      (get_wireless_sn fd stats range).rv = 0 ∧
      (get_wireless_sn fd stats range).signal =
        (if stats.q.updated &&& IW_QUAL_LEVEL_INVALID ≠ 0 ∨ range.q.level = 0 then 0
         else 100 * (stats.q.level : Int) / (range.q.level : Int)) ∧
      (get_wireless_sn fd stats range).noise =
        (if stats.q.updated &&& IW_QUAL_NOISE_INVALID ≠ 0 ∨ range.q.noise = 0 then 0
         else 100 * (stats.q.noise : Int) / (range.q.noise : Int))) ∧
    ((fd < 0 ∨ stats.rc < 0 ∨
        (stats.q.updated &&& IW_QUAL_RCPI = 0 ∧ stats.q.updated &&& IW_QUAL_DBM = 0 ∧
          range.rc < 0)) →
      (get_wireless_sn fd stats range).rv = -1 ∧
      (get_wireless_sn fd stats range).signal = 0 ∧
      (get_wireless_sn fd stats range).noise = 0) ∧
    (∀ (queries : List wireless_query) (wirelessinfo : wirelessinfo_t) (i : Nat),
      queries[i]? = some { fd := fd, stats := stats, range := range } →
      (get_wirelessinfo queries wirelessinfo).signal i = (get_wireless_sn fd stats range).signal ∧
      (get_wirelessinfo queries wirelessinfo).noise i = (get_wireless_sn fd stats range).noise) := by
  refine ⟨?_, ?_, ?_, ?_, ?_⟩
  · intro h1 h2 h3
    have a : ¬ fd < 0 := by omega
    have b : ¬ stats.rc < 0 := by omega
    simp only [get_wireless_sn, if_neg a, if_neg b, if_pos h3]
    refine ⟨trivial, ?_, ?_⟩
    · by_cases hi : stats.q.updated &&& IW_QUAL_LEVEL_INVALID = 0 <;> simp [hi]
    · by_cases hi : stats.q.updated &&& IW_QUAL_NOISE_INVALID = 0 <;> simp [hi]
  · intro h1 h2 h3 h4
    have a : ¬ fd < 0 := by omega
    have b : ¬ stats.rc < 0 := by omega
    have c : ¬ (stats.q.updated &&& IW_QUAL_RCPI ≠ 0) := by simp [h3]
    simp only [get_wireless_sn, if_neg a, if_neg b, if_neg c, if_pos h4]
    refine ⟨trivial, ?_, ?_, by omega, by omega, by omega, by omega⟩
    · by_cases hi : stats.q.updated &&& IW_QUAL_LEVEL_INVALID = 0 <;> simp [hi]
    · by_cases hi : stats.q.updated &&& IW_QUAL_NOISE_INVALID = 0 <;> simp [hi]
  · intro h1 h2 h3 h4 h5
    have a : ¬ fd < 0 := by omega
    have b : ¬ stats.rc < 0 := by omega
    have c : ¬ (stats.q.updated &&& IW_QUAL_RCPI ≠ 0) := by simp [h3]
    have d : ¬ (stats.q.updated &&& IW_QUAL_DBM ≠ 0) := by simp [h4]
    have e : ¬ range.rc < 0 := by omega
    simp only [get_wireless_sn, if_neg a, if_neg b, if_neg c, if_neg d, if_neg e]
    refine ⟨trivial, ?_, ?_⟩
    · by_cases hi : stats.q.updated &&& IW_QUAL_LEVEL_INVALID = 0 <;>
        by_cases hm : range.q.level = 0 <;> simp [hi, hm]
    · by_cases hi : stats.q.updated &&& IW_QUAL_NOISE_INVALID = 0 <;>
        by_cases hm : range.q.noise = 0 <;> simp [hi, hm]
  · intro hfail
    rcases hfail with h | h | ⟨h3, h4, h5⟩
    · simp [get_wireless_sn, h]
    · by_cases a : fd < 0
      · simp [get_wireless_sn, a]
      · simp [get_wireless_sn, a, h]
    · by_cases a : fd < 0
      · simp [get_wireless_sn, a]
      · by_cases b : stats.rc < 0
        · simp [get_wireless_sn, a, b]
        · simp [get_wireless_sn, a, b, h3, h4, h5]
  · intro queries wirelessinfo i hq
    have := (wirelessinfo_loop_values queries 0 wirelessinfo).2 i _ hq
    simpa [get_wirelessinfo] using this

/-- C13 at a concrete input: a reading in dBm (flags `0x0b`) with level 190
and noise 160 on an open socket; signal is -66 and noise is -96. -/
theorem get_wireless_sn_normalises_witness :
    (get_wireless_sn 3
        { rc := 0, q := { qual := 50, level := 190, noise := 160, updated := 0x0b } }
        { rc := 0, q := { qual := 0, level := 0, noise := 0, updated := 0 } }).rv = 0 ∧
    (get_wireless_sn 3
        { rc := 0, q := { qual := 50, level := 190, noise := 160, updated := 0x0b } }
        { rc := 0, q := { qual := 0, level := 0, noise := 0, updated := 0 } }).signal = -66 ∧
    (get_wireless_sn 3
        { rc := 0, q := { qual := 50, level := 190, noise := 160, updated := 0x0b } }
        { rc := 0, q := { qual := 0, level := 0, noise := 0, updated := 0 } }).noise = -96 ∧
    (-256 : Int) ≤ ((190 : Nat) : Int) - 256 ∧ ((190 : Nat) : Int) - 256 ≤ -1 ∧
    (-256 : Int) ≤ ((160 : Nat) : Int) - 256 ∧ ((160 : Nat) : Int) - 256 ≤ -1 :=
  (get_wireless_sn_normalises 3
      { rc := 0, q := { qual := 50, level := 190, noise := 160, updated := 0x0b } }
      { rc := 0, q := { qual := 0, level := 0, noise := 0, updated := 0 } }
      (by decide) (by decide)).2.1 (by decide) (by decide) (by decide) (by decide)

/-! ## Theorems: the bound on the session table -/

/-- A write that starts inside the buffer leaves a buffer as long as the
longer of the old buffer and the end of the write. -/
theorem length_write_at_le {α : Type} (buf : List α) (off : Nat) (data : List α) (bound : Nat)
    (hoff : off ≤ buf.length) (h1 : buf.length ≤ bound) (h2 : off + data.length ≤ bound) :
    (write_at buf off data).length ≤ bound := by
  unfold write_at
  simp [List.length_take, Nat.min_eq_left hoff]
  omega

/-- The slot a write of one element at `off` fills. -/
theorem getElem?_write_at_self {α : Type} (buf : List α) (off : Nat) (x : α)
    (hoff : off ≤ buf.length) : (write_at buf off [x])[off]? = some x := by
  unfold write_at
  have hl : (buf.take off).length = off := by simp [List.length_take, Nat.min_eq_left hoff]
  rw [List.append_assoc, List.getElem?_append_right (by omega), hl]
  simp

/-- The slots before a write are unchanged. -/
theorem getElem?_write_at_lt {α : Type} (buf : List α) (off i : Nat) (data : List α)
    (hoff : off ≤ buf.length) (hi : i < off) : (write_at buf off data)[i]? = buf[i]? := by
  unfold write_at
  have hl : (buf.take off).length = off := by simp [List.length_take, Nat.min_eq_left hoff]
  rw [List.append_assoc, List.getElem?_append_left (by omega), List.getElem?_take_of_lt hi]

/-- The `memmove` of the compaction pass keeps the number of slots. -/
theorem length_memmove_down {α : Type} (a : List α) (i n : Nat) (h : i + 1 + n ≤ a.length) :
    (memmove a i (i + 1) n).length = a.length := by
  unfold memmove
  apply length_write_at
  simp [List.length_take, List.length_drop]
  omega

/-- The compaction loop returns when the length counter is within the slots
and the fuel covers the slots still to visit; it does not increase the
length counter and keeps the number of slots. -/
theorem compact_loop_returns :
    ∀ (fuel i : Nat) (t : tcp_table),
      t.g_tcp_client_list_length ≤ t.g_tcp_client_list.length →
      t.g_tcp_client_list_length ≤ i + fuel →
      ∃ t2, compact_loop fuel i t = some t2 ∧
        t2.g_tcp_client_list_length ≤ t.g_tcp_client_list_length ∧
        t2.g_tcp_client_list.length = t.g_tcp_client_list.length := by
  intro fuel
  induction fuel with
  | zero =>
    intro i t _ hfuel
    have : ¬ i < t.g_tcp_client_list_length := by omega
    exact ⟨t, by simp [compact_loop, this], le_refl _, rfl⟩
  | succ fuel ih =>
    intro i t hslots hfuel
    by_cases hi : i < t.g_tcp_client_list_length
    · have hil : i < t.g_tcp_client_list.length := by omega
      have hget : t.g_tcp_client_list[i]? = some (t.g_tcp_client_list[i]) :=
        List.getElem?_eq_getElem hil
      simp only [compact_loop, if_pos hi, hget]
      by_cases hc : (t.g_tcp_client_list[i]).sockfd = -1
      · simp only [if_pos hc]
        by_cases hlast : i < t.g_tcp_client_list_length - 1
        · simp only [if_pos hlast]
          have hlen : (memmove t.g_tcp_client_list i (i + 1)
              (t.g_tcp_client_list_length - 1 - i)).length = t.g_tcp_client_list.length :=
            length_memmove_down _ _ _ (by omega)
          obtain ⟨t2, h1, h2, h3⟩ := ih (i + 1)
            { g_tcp_client_list := memmove t.g_tcp_client_list i (i + 1)
                (t.g_tcp_client_list_length - 1 - i),
              g_tcp_client_list_length := t.g_tcp_client_list_length - 1 }
            (by simp only [hlen]; omega) (by simp only; omega)
          exact ⟨t2, h1, by simp only at h2; omega, by rw [h3, hlen]⟩
        · simp only [if_neg hlast]
          obtain ⟨t2, h1, h2, h3⟩ := ih (i + 1)
            { t with g_tcp_client_list_length := t.g_tcp_client_list_length - 1 }
            (by simp only; omega) (by simp only; omega)
          exact ⟨t2, h1, by simp only at h2; omega, h3⟩
      · simp only [if_neg hc]
        exact ih (i + 1) t hslots (by omega)
    · exact ⟨t, by simp [compact_loop, hi], le_refl _, rfl⟩

/-- A call of `handle_tcp_connect` that returns keeps the bound on the
table.  The table is untouched when `accept` failed or returned a
descriptor of `FD_SETSIZE` or more; below `MAX_NR_CLIENTS` sessions the new
session is stored at the old length and the length grows by one; otherwise
the length and the number of slots are unchanged. -/
theorem handle_tcp_connect_bounded (find_oldest : tcp_table → Option Nat)
    (MAX_NR_CLIENTS FD_SETSIZE : Nat) (rv : Int) (addr : Nat) (port now : Int)
    (allocate : Option client_t) (t t2 : tcp_table) (ev : List Event)
    (hb : table_bounded MAX_NR_CLIENTS t)
    (hret : handle_tcp_connect find_oldest MAX_NR_CLIENTS FD_SETSIZE rv addr port now allocate t
      = .ok (t2, ev)) :
    table_bounded MAX_NR_CLIENTS t2 ∧
    ((rv = -1 ∨ (FD_SETSIZE : Int) ≤ rv) → t2 = t) ∧
    (rv ≠ -1 → rv < FD_SETSIZE → t.g_tcp_client_list_length < MAX_NR_CLIENTS →
      t2.g_tcp_client_list_length = t.g_tcp_client_list_length + 1 ∧
      (∃ client, allocate = some client ∧
        t2.g_tcp_client_list[t.g_tcp_client_list_length]? =
          some (fill_client client rv addr port now)) ∧
      ∀ i, i < t.g_tcp_client_list_length → t2.g_tcp_client_list[i]? = t.g_tcp_client_list[i]?) ∧
    (rv ≠ -1 → rv < FD_SETSIZE → MAX_NR_CLIENTS ≤ t.g_tcp_client_list_length →
      t2.g_tcp_client_list_length = t.g_tcp_client_list_length ∧
      t2.g_tcp_client_list.length = t.g_tcp_client_list.length) := by
  obtain ⟨hb1, hb2⟩ := hb
  unfold handle_tcp_connect at hret
  by_cases h1 : rv = -1
  · simp only [if_pos h1, Except.ok.injEq, Prod.mk.injEq] at hret
    obtain ⟨rfl, _⟩ := hret
    exact ⟨⟨hb1, hb2⟩, fun _ => rfl, fun h => absurd h1 h, fun h => absurd h1 h⟩
  · by_cases h2 : rv ≥ (FD_SETSIZE : Int)
    · simp only [if_neg h1, if_pos h2, Except.ok.injEq, Prod.mk.injEq] at hret
      obtain ⟨rfl, _⟩ := hret
      exact ⟨⟨hb1, hb2⟩, fun _ => rfl, fun _ h => by omega, fun _ h => by omega⟩
    · simp only [if_neg h1, if_neg h2] at hret
      by_cases h3 : t.g_tcp_client_list_length ≥ MAX_NR_CLIENTS
      · simp only [if_pos h3] at hret
        cases hf : find_oldest t with
        | none => rw [hf] at hret; cases hret
        | some pos =>
          rw [hf] at hret
          simp only at hret
          cases hg : t.g_tcp_client_list[pos]? with
          | none => rw [hg] at hret; cases hret
          | some client =>
            rw [hg] at hret
            simp only [Except.ok.injEq, Prod.mk.injEq] at hret
            obtain ⟨rfl, _⟩ := hret
            refine ⟨⟨by simpa using hb1, by simpa using hb2⟩, fun h => ?_, fun _ _ h => ?_,
              fun _ _ _ => ⟨rfl, by simp⟩⟩
            · rcases h with h | h
              · exact absurd h h1
              · exact absurd h h2
            · omega
      · simp only [if_neg h3] at hret
        cases ha : allocate with
        | none => rw [ha] at hret; cases hret
        | some client =>
          rw [ha] at hret
          simp only at hret
          have hs : ¬ t.g_tcp_client_list.length < t.g_tcp_client_list_length := by omega
          simp only [if_neg hs, Except.ok.injEq, Prod.mk.injEq] at hret
          obtain ⟨rfl, _⟩ := hret
          refine ⟨⟨?_, ?_⟩, fun h => ?_, fun _ _ _ => ⟨rfl, ⟨client, rfl, ?_⟩, ?_⟩,
            fun _ _ h => ?_⟩
          · exact le_length_write_at t.g_tcp_client_list t.g_tcp_client_list_length
              [fill_client client rv addr port now] hb1
          · exact length_write_at_le _ _ _ _ hb1 hb2 (by simp; omega)
          · rcases h with h | h
            · exact absurd h h1
            · exact absurd h h2
          · exact getElem?_write_at_self _ _ _ hb1
          · intro i hi
            exact getElem?_write_at_lt _ _ _ _ hb1 hi
          · omega

/-- Every table the event loop reaches satisfies the bound. -/
theorem loop_reachable_bounded (find_oldest : tcp_table → Option Nat)
    (MAX_NR_CLIENTS FD_SETSIZE : Nat) (t : tcp_table)
    (h : loop_reachable find_oldest MAX_NR_CLIENTS FD_SETSIZE t) :
    table_bounded MAX_NR_CLIENTS t := by
  induction h with
  | init => exact ⟨le_refl _, Nat.zero_le _⟩
  | connect t t2 rv addr port now allocate ev _ hret ih =>
    exact (handle_tcp_connect_bounded find_oldest MAX_NR_CLIENTS FD_SETSIZE rv addr port now
      allocate t t2 ev ih hret).1
  | session t i client _ _ ih =>
    exact ⟨by simpa using ih.1, by simpa using ih.2⟩
  | compaction t t2 _ hc ih =>
    obtain ⟨t3, h1, h2, h3⟩ := compact_loop_returns t.g_tcp_client_list_length 0 t ih.1 (by omega)
    have : t3 = t2 := by
      unfold compact at hc
      rw [h1] at hc
      exact Option.some.inj hc
    subst this
    exact ⟨by have := ih.1; omega, by have := ih.2; omega⟩

/-- C14: the bound `g_tcp_client_list_length ≤ MAX_NR_CLIENTS` over the event
loop, for every `find_oldest_client`.  (1) The initial table has length 0
and satisfies the bound.  (2) A call of `handle_tcp_connect` that returns
keeps the bound: the table is untouched when `accept` failed or returned a
descriptor of `FD_SETSIZE` or more; with fewer than `MAX_NR_CLIENTS`
sessions the new session is stored at the old length, the sessions before
it are unchanged and the length grows by one; otherwise the length and the
number of slots are unchanged.  (3) With fewer than `MAX_NR_CLIENTS`
sessions and a successful allocation the call does return.  (4) A
compaction pass returns, never increases the length and keeps the bound.
(5) Hence every table the loop reaches has a length of at most
`MAX_NR_CLIENTS` and no slot at index `MAX_NR_CLIENTS` or beyond. -/
theorem session_table_length_invariant (find_oldest : tcp_table → Option Nat)
    (MAX_NR_CLIENTS FD_SETSIZE : Nat) :
    (tcp_table_init.g_tcp_client_list_length = 0 ∧
      table_bounded MAX_NR_CLIENTS tcp_table_init) ∧
    (∀ (rv : Int) (addr : Nat) (port now : Int) (allocate : Option client_t)
        (t t2 : tcp_table) (ev : List Event),
      table_bounded MAX_NR_CLIENTS t →
      handle_tcp_connect find_oldest MAX_NR_CLIENTS FD_SETSIZE rv addr port now allocate t
        = .ok (t2, ev) →
      table_bounded MAX_NR_CLIENTS t2 ∧
      ((rv = -1 ∨ (FD_SETSIZE : Int) ≤ rv) → t2 = t) ∧
      (rv ≠ -1 → rv < FD_SETSIZE → t.g_tcp_client_list_length < MAX_NR_CLIENTS →
        t2.g_tcp_client_list_length = t.g_tcp_client_list_length + 1 ∧
        (∃ client, allocate = some client ∧
          t2.g_tcp_client_list[t.g_tcp_client_list_length]? =
            some (fill_client client rv addr port now)) ∧
        ∀ i, i < t.g_tcp_client_list_length →
          t2.g_tcp_client_list[i]? = t.g_tcp_client_list[i]?) ∧
      (rv ≠ -1 → rv < FD_SETSIZE → MAX_NR_CLIENTS ≤ t.g_tcp_client_list_length →
        t2.g_tcp_client_list_length = t.g_tcp_client_list_length ∧
        t2.g_tcp_client_list.length = t.g_tcp_client_list.length)) ∧
    (∀ (rv : Int) (addr : Nat) (port now : Int) (client : client_t) (t : tcp_table),
      table_bounded MAX_NR_CLIENTS t → rv ≠ -1 → rv < FD_SETSIZE →
      t.g_tcp_client_list_length < MAX_NR_CLIENTS →
      ∃ t2, handle_tcp_connect find_oldest MAX_NR_CLIENTS FD_SETSIZE rv addr port now
        (some client) t = .ok (t2, [])) ∧
    (∀ t : tcp_table, table_bounded MAX_NR_CLIENTS t →
      ∃ t2, compact t = some t2 ∧
        t2.g_tcp_client_list_length ≤ t.g_tcp_client_list_length ∧
        table_bounded MAX_NR_CLIENTS t2) ∧
    (∀ t : tcp_table, loop_reachable find_oldest MAX_NR_CLIENTS FD_SETSIZE t →
      t.g_tcp_client_list_length ≤ MAX_NR_CLIENTS ∧
      t.g_tcp_client_list.length ≤ MAX_NR_CLIENTS ∧
      t.sessions.length = t.g_tcp_client_list_length) := by
  refine ⟨⟨rfl, le_refl _, Nat.zero_le _⟩, ?_, ?_, ?_, ?_⟩
  · intro rv addr port now allocate t t2 ev hb hret
    exact handle_tcp_connect_bounded find_oldest MAX_NR_CLIENTS FD_SETSIZE rv addr port now
      allocate t t2 ev hb hret
  · intro rv addr port now client t hb h1 h2 h3
    have a : ¬ (rv ≥ (FD_SETSIZE : Int)) := by omega
    have b : ¬ (t.g_tcp_client_list_length ≥ MAX_NR_CLIENTS) := by omega
    have c : ¬ t.g_tcp_client_list.length < t.g_tcp_client_list_length := by
      have := hb.1
      omega
    exact ⟨{ g_tcp_client_list :=
               write_at t.g_tcp_client_list t.g_tcp_client_list_length
                 [fill_client client rv addr port now],
             g_tcp_client_list_length := t.g_tcp_client_list_length + 1 },
      by simp only [handle_tcp_connect, if_neg h1, if_neg a, if_neg b, if_neg c]⟩
  · intro t hb
    obtain ⟨t2, h1, h2, h3⟩ :=
      compact_loop_returns t.g_tcp_client_list_length 0 t hb.1 (by omega)
    refine ⟨t2, h1, h2, ?_, ?_⟩
    · have := hb.1
      omega
    · have := hb.2
      omega
  · intro t hr
    have hb := loop_reachable_bounded find_oldest MAX_NR_CLIENTS FD_SETSIZE t hr
    refine ⟨le_trans hb.1 hb.2, hb.2, ?_⟩
    simp [tcp_table.sessions, List.length_take, Nat.min_eq_left hb.1]

/-- C14 at a concrete input: with `MAX_NR_CLIENTS = 1`, the table after two
accepted connections (descriptors 5 and 6, the second one evicting the
first) is reachable, and its length is at most 1. -/
theorem session_table_length_invariant_witness :
    ({ g_tcp_client_list :=
         [{ timestamp := 70, sockfd := 6, addr := 2, port := 1002, packet := [0, 0],
            size := 0, outgoing := 0 }],
       g_tcp_client_list_length := 1 } : tcp_table).g_tcp_client_list_length ≤ 1 ∧
    ({ g_tcp_client_list :=
         [{ timestamp := 70, sockfd := 6, addr := 2, port := 1002, packet := [0, 0],
            size := 0, outgoing := 0 }],
       g_tcp_client_list_length := 1 } : tcp_table).g_tcp_client_list.length ≤ 1 ∧
    (tcp_table.sessions
      { g_tcp_client_list :=
         [{ timestamp := 70, sockfd := 6, addr := 2, port := 1002, packet := [0, 0],
            size := 0, outgoing := 0 }],
        g_tcp_client_list_length := 1 }).length = 1 :=
  (session_table_length_invariant find_oldest_client 1 1024).2.2.2.2
    { g_tcp_client_list :=
        [{ timestamp := 70, sockfd := 6, addr := 2, port := 1002, packet := [0, 0],
           size := 0, outgoing := 0 }],
      g_tcp_client_list_length := 1 }
    (loop_reachable.connect
      { g_tcp_client_list :=
          [{ timestamp := 60, sockfd := 5, addr := 1, port := 1001, packet := [0, 0],
             size := 0, outgoing := 0 }],
        g_tcp_client_list_length := 1 }
      _ 6 2 1002 70 none [Event.close 5]
      (loop_reachable.connect tcp_table_init _ 5 1 1001 60
        (some { timestamp := 0, sockfd := 0, addr := 0, port := 0, packet := [0, 0],
                size := 9, outgoing := 1 })
        [] loop_reachable.init rfl)
      rfl)

end MiniSnmpd
